import Mathlib

/-!
Verification of the timetable-validation and grade-finalization logic of a
school-management backend (Django project with apps `academics`, `people`,
`master`).

Conventions of the shallow embedding:

* Database primary keys and foreign keys are integers; a nullable column is an
  `Option`.  Clock times (`TimeField`) are minutes since midnight as `Nat`.
* Python `decimal.Decimal` values are exact; every decimal flowing through the
  finalization pipeline is an integer multiple of `10 ^ (-4)` (scores are
  stored with 2 decimal places, and each term `score * weight / 100` with an
  integer `weight` has at most 4).  We therefore represent decimals in
  fixed point: scores, GPAs and grade-band bounds in centi-units
  (`84.25 = 8425`), and the running weighted total in units of `10 ^ (-4)`.
* A Django queryset is a `List` in the database's iteration order; `.filter`
  is `List.filter`, `.first()` is `List.find?` after applying the model's
  `Meta.ordering`, and `.exclude(col=x)` on a nullable column follows SQL
  three-valued logic (a NULL column never matches `col = x` for non-null `x`).
* Validation raising `ValidationError` is `Except.error` carrying the data
  that the Django error message interpolates.
-/

namespace FixAssign

/-! ## Timetable entries (`academics/models.py`, `TimetableEntry`) -/

/-- A timetable slot row (`academics.models.TimetableEntry`).  `pk` is `none`
for a row that has not been saved yet; `room` is the legacy free-text room
field kept for backwards compatibility. -/
structure TimetableEntry where
  pk : Option Nat
  class_name_id : Nat
  section_id : Nat
  subject_id : Nat
  teacher_id : Option Nat
  classroom_id : Option Nat
  day_of_week : String
  start_time : Nat
  end_time : Nat
  room : Option String
deriving DecidableEq

/-- The distinct `ValidationError`s `TimetableEntry.clean` can raise, with the
data interpolated into the Django message carried as payload (the teacher
conflict message names the conflicting slot's time range and class/section;
the room conflict message names the conflicting time range). -/
inductive CleanError where
  | timeOrder : CleanError
  | subjectClass : CleanError
  | teacherConflict (conflict_start conflict_end conflict_class conflict_section : Nat) : CleanError
  | roomConflict (conflict_start conflict_end : Nat) : CleanError
  | classSlotConflict : CleanError
deriving DecidableEq

/-- `TimetableEntry._overlap_q`: `Q(start_time__lt=end) & Q(end_time__gt=start)`,
i.e. half-open interval overlap of `[start, stop)` with `[o.start_time, o.end_time)`. -/
def overlapQ (start stop : Nat) (o : TimetableEntry) : Bool :=
  decide (o.start_time < stop) && decide (start < o.end_time)

/-- Check 2 of `TimetableEntry.clean`: the subject must belong to the class.
`subjClassOf` maps a subject id to its `class_name_id`
(`getattr(self.subject, "class_name_id", None)`); Python id truthiness is
`≠ 0`. -/
def subjectMismatch (subjClassOf : Nat → Option Nat) (e : TimetableEntry) : Bool :=
  decide (e.subject_id ≠ 0) && decide (e.class_name_id ≠ 0) &&
    (match subjClassOf e.subject_id with
     | some c => decide (c ≠ 0) && decide (c ≠ e.class_name_id)
     | none => false)

/-- SQL semantics of `.exclude(teacher_id=self.teacher_id)` on a nullable
column: for a non-null needle a NULL column yields UNKNOWN and the row is
dropped; for a NULL needle the generated `NOT (col IS NULL)` keeps exactly the
non-null rows. -/
def sqlExcludeNe (col needle : Option Nat) : Bool :=
  match needle, col with
  | none, c => decide (c ≠ none)
  | some v, some c => decide (c ≠ v)
  | some _, none => false

/-- Check 3 of `TimetableEntry.clean`: the teacher cannot be in two places at
the same time; reports the first conflicting row of the overlap subset. -/
def teacherCheck (others : List TimetableEntry) (e : TimetableEntry) :
    Except CleanError Unit :=
  match e.teacher_id with
  | some t =>
    match others.find? (fun o => decide (o.teacher_id = some t)) with
    | some c => .error (.teacherConflict c.start_time c.end_time c.class_name_id c.section_id)
    | none => .ok ()
  | none => .ok ()

/-- Check 4 of `TimetableEntry.clean`: room double-booking.  Prefers the
structured `classroom` reference; falls back to case-insensitive comparison of
the stripped legacy free-text `room`. -/
def roomCheck (others : List TimetableEntry) (e : TimetableEntry) :
    Except CleanError Unit :=
  match e.classroom_id with
  | some r =>
    match others.find? (fun o => decide (o.classroom_id = some r)) with
    | some c => .error (.roomConflict c.start_time c.end_time)
    | none => .ok ()
  | none =>
    let key := (e.room.getD "").trim
    if key = "" then .ok ()
    else
      match others.find? (fun o =>
          match o.room with
          | some s => decide (s.toLower = key.toLower)
          | none => false) with
      | some c => .error (.roomConflict c.start_time c.end_time)
      | none => .ok ()

/-- Check 5 of `TimetableEntry.clean`: the class/section cannot receive two
different teachers at the same time (`.exclude(teacher_id=self.teacher_id)`
under SQL semantics). -/
def classSlotCheck (others : List TimetableEntry) (e : TimetableEntry) :
    Except CleanError Unit :=
  match others.find? (fun o =>
      decide (o.class_name_id = e.class_name_id) && decide (o.section_id = e.section_id) &&
        sqlExcludeNe o.teacher_id e.teacher_id) with
  | some _ => .error .classSlotConflict
  | none => .ok ()

/-- The overlap subset of `TimetableEntry.clean`: all other rows on the same
day whose time range overlaps the candidate's (`.exclude(pk=self.pk)` drops
nothing when the candidate is unsaved, since stored rows always have a pk). -/
def overlapSubset (existing : List TimetableEntry) (e : TimetableEntry) :
    List TimetableEntry :=
  existing.filter fun o =>
    decide (o.day_of_week = e.day_of_week) && decide (o.pk ≠ e.pk) &&
      overlapQ e.start_time e.end_time o

/-- `TimetableEntry.clean`, run against the list of stored rows `existing`:
time sanity, subject/class consistency, then the three conflict checks over
the overlap subset, short-circuiting on the first failure. -/
def clean (subjClassOf : Nat → Option Nat) (existing : List TimetableEntry)
    (e : TimetableEntry) : Except CleanError Unit :=
  if e.end_time ≤ e.start_time then .error .timeOrder
  else if subjectMismatch subjClassOf e then .error .subjectClass
  else do
    let others := overlapSubset existing e
    teacherCheck others e
    roomCheck others e
    classSlotCheck others e

/-! ## Students and the serializer capacity check
(`academics/serializers.py`, `TimetableEntrySerializer.validate`) -/

/-- A row of `people.models.Student` restricted to the fields the two
procedures read. -/
structure Student where
  id : Int
  class_id : Int
  section_id : Int
deriving DecidableEq

/-- A classroom (`academics.models.Classroom`); `capacity` is a nullable
non-negative integer. -/
structure Classroom where
  name : String
  capacity : Option Nat
deriving DecidableEq

/-- `Student.objects.filter(class_name=c, section=s).count()`. -/
def classSize (students : List Student) (c s : Int) : Nat :=
  (students.filter fun st => decide (st.class_id = c) && decide (st.section_id = s)).length

/-- The capacity portion of `TimetableEntrySerializer.validate`.  Arguments
are the resolved `class_name` / `section` / `classroom` values after the
attrs-or-instance fallback; `cap and cap > 0` treats a NULL or zero capacity
as unlimited.  The error payload is the `(capacity, class size)` pair that the
message interpolates. -/
def validateCapacity (students : List Student) (class_name section_v : Option Int)
    (classroom : Option Classroom) : Except (Nat × Nat) Unit :=
  match class_name, section_v, classroom with
  | some c, some s, some room =>
    match room.capacity with
    | some cap =>
      if 0 < cap then
        if cap < classSize students c s then .error (cap, classSize students c s)
        else .ok ()
      else .ok ()
    | none => .ok ()
  | _, _, _ => .ok ()

/-! ## GradeScale exclusivity (`academics/models.py`, `GradeScale.save`;
the second of the two identically named model classes shadows the first,
so the effective `save` uses `.exclude(pk=self.pk)`) -/

/-- A stored `GradeScale` row (stored rows always have a pk). -/
structure GradeScaleRow where
  pk : Nat
  name : String
  is_active : Bool
deriving DecidableEq

/-- An in-memory `GradeScale` instance about to be saved; `pk = none` means a
new, not yet inserted object. -/
structure GradeScaleObj where
  pk : Option Nat
  name : String
  is_active : Bool
deriving DecidableEq

/-- The pk a saved object ends up with: its own pk, or a fresh one on insert. -/
def freshPk (db : List GradeScaleRow) : Nat :=
  db.foldr (fun g m => max g.pk m) 0 + 1

/-- The row written by `super().save()`. -/
def savedRow (db : List GradeScaleRow) (s : GradeScaleObj) : GradeScaleRow :=
  { pk := s.pk.getD (freshPk db), name := s.name, is_active := s.is_active }

/-- `.exclude(pk=self.pk)` under SQL semantics: with `self.pk = None` the
generated `NOT (pk IS NULL)` keeps every stored row. -/
def pkExcluded (rowPk : Nat) (selfPk : Option Nat) : Bool :=
  match selfPk with
  | none => true
  | some k => decide (rowPk ≠ k)

/-- `GradeScale.objects.filter(is_active=True).exclude(pk=self.pk).update(is_active=False)`. -/
def deactOthers (s : GradeScaleObj) (db : List GradeScaleRow) : List GradeScaleRow :=
  db.map fun g =>
    if g.is_active && pkExcluded g.pk s.pk then { g with is_active := false } else g

/-- `super().save()` with a known pk: update the row with that pk when it
exists, insert otherwise. -/
def writeRow (db1 : List GradeScaleRow) (k : Nat) (row : GradeScaleRow) :
    List GradeScaleRow :=
  if db1.any (fun g => decide (g.pk = k)) then
    db1.map fun g => if g.pk = k then row else g
  else db1 ++ [row]

/-- `GradeScale.save`: if the instance is active, first
`GradeScale.objects.filter(is_active=True).exclude(pk=self.pk).update(is_active=False)`,
then `super().save()` (update the row with this pk, or insert a fresh one). -/
def gradeScaleSave (db : List GradeScaleRow) (s : GradeScaleObj) : List GradeScaleRow :=
  let db1 := if s.is_active then deactOthers s db else db
  match s.pk with
  | none => db1 ++ [savedRow db s]
  | some k => writeRow db1 k (savedRow db s)

/-- Number of active rows. -/
def activeCount (db : List GradeScaleRow) : Nat :=
  db.countP fun g => g.is_active

/-! ## Exams, marks and grade bands (`academics/models.py`) -/

/-- A row of `academics.models.Exam`; `(class_name, section, name)` is
`unique_together`. -/
structure Exam where
  id : Int
  class_id : Int
  section_id : Int
  name : String
  is_published : Bool
deriving DecidableEq

/-- A row of `academics.models.ExamMark`; `(exam, student, subject)` is
`unique_together`.  `score` and `gpa` are `Decimal(…, 2)` in centi-units. -/
structure ExamMark where
  exam_id : Int
  student_id : Int
  subject_id : Int
  score : Int
  letter : String
  gpa : Option Int
deriving DecidableEq

/-- The `unique_together` key of an `ExamMark`. -/
def ExamMark.key (m : ExamMark) : Int × Int × Int :=
  (m.exam_id, m.student_id, m.subject_id)

/-- A row of `master.models.Subject` restricted to the fields read here. -/
structure Subject where
  id : Int
  class_id : Int
deriving DecidableEq

/-- A `GradeBand`: `[min_score, max_score]` in whole points (the model stores
`PositiveIntegerField`s), `gpa` in centi-units. -/
structure GradeBand where
  min_score : Nat
  max_score : Nat
  letter : String
  gpa : Int
deriving DecidableEq

/-- A `GradeScale` together with its related bands, in database order. -/
structure GradeScale where
  is_active : Bool
  bands : List GradeBand
deriving DecidableEq

/-- `GradeBand.Meta.ordering = ["-min_score"]`: the related queryset iterates
bands by descending `min_score`. -/
def bandsOrdered (bs : List GradeBand) : List GradeBand :=
  List.insertionSort (fun a b => b.min_score ≤ a.min_score) bs

/-- `min_score__lte=score, max_score__gte=score` for a score in centi-units. -/
def bandMatches (score : Int) (b : GradeBand) : Bool :=
  decide (100 * (b.min_score : Int) ≤ score) && decide (score ≤ 100 * (b.max_score : Int))

/-- `api_finals.band_for`: the first active scale, then the first band (in the
`-min_score` ordering) whose `[min, max]` contains the score; `("", None)`
when there is no active scale or no matching band.
`ExamMark._apply_grade` performs the identical lookup. -/
def bandFor (scales : List GradeScale) (score : Int) : String × Option Int :=
  match scales.find? (fun sc => sc.is_active) with
  | none => ("", none)
  | some scale =>
    match (bandsOrdered scale.bands).find? (bandMatches score) with
    | none => ("", none)
    | some b => (b.letter, some b.gpa)

/-- `api_finals.round2`: `Decimal(x).quantize(Decimal("0.01"), ROUND_HALF_UP)`.
The argument is in units of `10 ^ (-4)`, the result in centi-units;
`ROUND_HALF_UP` rounds ties away from zero. -/
def round2 (t : Int) : Int :=
  if 0 ≤ t then (t + 50).fdiv 100 else -((-t + 50).fdiv 100)

/-- `ExamMark._apply_grade`: overwrite `letter`/`gpa` from the currently
active scale's band for `self.score` (clearing them when there is no active
scale or no covering band). -/
def applyGrade (scales : List GradeScale) (m : ExamMark) : ExamMark :=
  let lg := bandFor scales m.score
  { m with letter := lg.1, gpa := lg.2 }

/-- Write a mark row: replace every row with the same `unique_together` key,
or insert.  This is the net effect of `get_or_create` on the key followed by
`save()` on the returned object. -/
def upsertMark (marks : List ExamMark) (m : ExamMark) : List ExamMark :=
  if marks.any (fun x => decide (x.key = m.key)) then
    marks.map fun x => if x.key = m.key then m else x
  else marks ++ [m]

/-- `ExamMark.save`: `full_clean()` (pure validation, no effect on the written
fields), then `_apply_grade()`, then the write. -/
def examMarkSave (scales : List GradeScale) (marks : List ExamMark) (m : ExamMark) :
    List ExamMark :=
  upsertMark marks (applyGrade scales m)

/-- First stored row with a given `unique_together` key. -/
def lookupMark (marks : List ExamMark) (k : Int × Int × Int) : Option ExamMark :=
  marks.find? fun x => decide (x.key = k)

/-- Score of the first stored row with a given key, when present. -/
def lookupScore (marks : List ExamMark) (k : Int × Int × Int) : Option Int :=
  (lookupMark marks k).map fun m => m.score

/-! ## The finalize-and-publish endpoint (`academics/api_finals.py`) -/

/-- A Python/JSON scalar as it reaches `int(...)`: an integer, a float carried
as the exact fraction `num / den` it denotes, a string, or `None`. -/
inductive PyVal where
  | pyInt : Int → PyVal
  | pyFloat : Int → Nat → PyVal
  | pyStr : String → PyVal
  | pyNone : PyVal
deriving DecidableEq

/-- Python `int(v)`: integers unchanged, floats truncate toward zero, numeric
strings parse, `None` (and a non-numeric string) raise, modelled as `none`. -/
def pyToInt : PyVal → Option Int
  | .pyInt n => some n
  | .pyFloat n d => if d = 0 then none else some (Int.tdiv n d)
  | .pyStr s => s.toInt?
  | .pyNone => none

/-- One element of the request's `parts` list; `exam_id` is `none` when the
key is absent from the dict. -/
structure Part where
  exam_id : Option Int
  weight : Option PyVal
deriving DecidableEq

/-- The `parts` member of the request body: absent, present but not a list,
or a list. -/
inductive PartsField where
  | absent : PartsField
  | notAList : PartsField
  | list : List Part → PartsField
deriving DecidableEq

/-- The 400-responses of `FinalizeAndPublish.post` relevant to the model
(identifier-parsing failures happen before `parts` handling and are not
modelled; `class_id`/`section_id`/`year` arrive as parsed integers). -/
inductive FinErr where
  | partsRequired : FinErr
  | weightsNotInt : FinErr
  | badWeightSum (total : Int) : FinErr
  | invalidClass : FinErr
  | invalidSection : FinErr
  | examNotFound : FinErr
  | emptyCohort : FinErr
deriving DecidableEq

/-- `p.get("weight", 0)`. -/
def partWeightVal (p : Part) : PyVal :=
  p.weight.getD (.pyInt 0)

/-- `sum(int(p.get("weight", 0)) for p in parts)`: `none` when any `int(...)`
raises. -/
def weightSum (ps : List Part) : Option Int :=
  ps.foldr (fun p acc =>
    match pyToInt (partWeightVal p), acc with
    | some w, some t => some (w + t)
    | _, _ => none) (some 0)

/-- `parts = request.data.get("parts") or []` followed by the
non-empty-list check. -/
def partsList : PartsField → Except FinErr (List Part)
  | .absent => .error .partsRequired
  | .notAList => .error .partsRequired
  | .list ps => if ps.isEmpty then .error .partsRequired else .ok ps

/-- The weight precondition of `FinalizeAndPublish.post`: non-empty list,
every weight convertible by `int(...)`, and the converted weights summing to
exactly 100. -/
def weightCheck (pf : PartsField) : Except FinErr (List Part) := do
  let ps ← partsList pf
  match weightSum ps with
  | none => .error .weightsNotInt
  | some t => if t = 100 then pure ps else .error (.badWeightSum t)

/-- `int(part["exam_id"])` as used inside the upsert loop.  The handler would
raise (an unhandled 500) on a part without the key; the model totalizes that
case with 0, which no claim exercises. -/
def partExamId (p : Part) : Int :=
  p.exam_id.getD 0

/-- `int(part["weight"])` inside the loop; after `weightCheck` every weight
converts, so the default is never reached on a validated request. -/
def partWeight (p : Part) : Int :=
  (pyToInt (partWeightVal p)).getD 0

/-- The `score_map` lookup: `(exam_id, student_id, subject_id) → score` built
from the marks of the component exams only, with
`score_map.get(key, Decimal("0"))` defaulting a missing entry to 0. -/
def scoreLookup (marks : List ExamMark) (examIds : List Int) (k : Int × Int × Int) : Int :=
  ((((marks.filter fun m => decide (m.exam_id ∈ examIds)).find? fun m =>
      decide (m.key = k)).map fun m => m.score).getD 0)

/-- The inner accumulation `total += sc * w` with `w = weight / 100`: the sum
over the parts of `score * weight`, in units of `10 ^ (-4)` (centi-score times
integer percent). -/
def weightedTotal (marks0 : List ExamMark) (examIds : List Int) (ps : List Part)
    (st su : Int) : Int :=
  ps.foldl (fun acc p => acc + scoreLookup marks0 examIds (partExamId p, st, su) * partWeight p) 0

/-- The mark row the loop body stores for one `(student, subject)` pair:
`final_score = round2(total)` and the `band_for` letter/gpa (the per-score
`letter_map` is a memo of the pure `band_for`, hence modelled by calling it). -/
def computedRow (scales : List GradeScale) (marks0 : List ExamMark) (examIds : List Int)
    (ps : List Part) (fid st su : Int) : ExamMark :=
  let fs := round2 (weightedTotal marks0 examIds ps st su)
  let lg := bandFor scales fs
  { exam_id := fid, student_id := st, subject_id := su, score := fs,
    letter := lg.1, gpa := lg.2 }

/-- One iteration of the upsert loop: `get_or_create` on
`(final_exam, student, subject)` with `defaults=score`, `mark.score = …` when
the row existed, the `letter`/`gpa` assignments from the cached band lookup
(`gpa` only assigned when the lookup produced one), then `mark.save()`. -/
def upsertStep (scales : List GradeScale) (marks0 : List ExamMark) (examIds : List Int)
    (ps : List Part) (fid : Int) (marks : List ExamMark) (pair : Int × Int) :
    List ExamMark :=
  let st := pair.1
  let su := pair.2
  let fs := round2 (weightedTotal marks0 examIds ps st su)
  let lg := bandFor scales fs
  let base : ExamMark :=
    match marks.find? (fun x => decide (x.key = (fid, st, su))) with
    | some old => { old with score := fs }
    | none => { exam_id := fid, student_id := st, subject_id := su, score := fs,
                letter := "", gpa := none }
  let assigned : ExamMark :=
    { base with letter := lg.1,
                gpa := match lg.2 with | some g => some g | none => base.gpa }
  examMarkSave scales marks assigned

/-- The full `for stu in students: for sub in subjects:` upsert loop.
`marks0` is the state the `score_map` was built from; it stays fixed while
`marks` evolves. -/
def upsertLoop (scales : List GradeScale) (marks0 : List ExamMark) (examIds : List Int)
    (ps : List Part) (fid : Int) (pairs : List (Int × Int)) (marks : List ExamMark) :
    List ExamMark :=
  pairs.foldl (upsertStep scales marks0 examIds ps fid) marks

/-- The persistent state the endpoint reads and writes. -/
structure DB where
  classes : List Int
  sections : List Int
  exams : List Exam
  marks : List ExamMark
  students : List Student
  subjects : List Subject
  scales : List GradeScale
  nextExamId : Int
deriving DecidableEq

/-- The 200-response payload of `FinalizeAndPublish.post`. -/
structure FinRes where
  final_exam_id : Int
  final_exam_name : String
  published : Bool
  upserts : Nat
deriving DecidableEq

/-- The request body, after the integer identifiers have been parsed. -/
structure FinReq where
  class_id : Int
  section_id : Int
  year : Int
  parts : PartsField
  name : Option String
  publish : Bool
deriving DecidableEq

/-- `request.data.get("name") or f"Final Result {year}"`: an absent or empty
name falls back to the default. -/
def pyOrName (nm : Option String) (dflt : String) : String :=
  match nm with
  | some s => if s = "" then dflt else s
  | none => dflt

/-- The `get_or_create` natural key of a final exam. -/
def examKeyPred (c s : Int) (nm : String) (e : Exam) : Bool :=
  decide (e.class_id = c) && decide (e.section_id = s) && decide (e.name = nm)

/-- `final_exam.save(update_fields=["is_published"])`: set the row with this
id published. -/
def pubMap (fid : Int) (exs : List Exam) : List Exam :=
  exs.map fun e => if e.id = fid then { e with is_published := true } else e

/-- `Exam.objects.get_or_create(class_name=cls, section=sec, name=…,
defaults=dict(is_published=False))`. -/
def getOrCreateExam (db : DB) (c s : Int) (nm : String) : Exam × DB :=
  match db.exams.find? (examKeyPred c s nm) with
  | some e => (e, db)
  | none =>
    let e : Exam := { id := db.nextExamId, class_id := c, section_id := s,
                      name := nm, is_published := false }
    (e, { db with exams := db.exams ++ [e], nextExamId := db.nextExamId + 1 })

/-- The exam ids referenced by the parts
(`[int(p["exam_id"]) for p in parts if "exam_id" in p]`). -/
def examIdsOf (ps : List Part) : List Int :=
  ps.filterMap fun p => p.exam_id

/-- `Exam.objects.filter(id__in=exam_ids)` row count. -/
def examsFoundCount (db : DB) (ids : List Int) : Nat :=
  (db.exams.filter fun e => decide (e.id ∈ ids)).length

/-- `Student.objects.filter(class_name=cls, section=sec)`, as ids. -/
def cohortStudents (db : DB) (r : FinReq) : List Int :=
  (db.students.filter fun st =>
    decide (st.class_id = r.class_id) && decide (st.section_id = r.section_id)).map fun st => st.id

/-- `Subject.objects.filter(class_name=cls)`, as ids. -/
def cohortSubjects (db : DB) (r : FinReq) : List Int :=
  (db.subjects.filter fun su => decide (su.class_id = r.class_id)).map fun su => su.id

/-- The write phase of `FinalizeAndPublish.post` (everything after the input
and cohort checks): locate-or-create the final exam, run the upsert loop over
the student×subject product, publish when requested and not yet published,
and build the response. -/
def finalizeWrite (db : DB) (r : FinReq) (ps : List Part) : DB × FinRes :=
  let finalName := pyOrName r.name ("Final Result " ++ toString r.year)
  let gc := getOrCreateExam db r.class_id r.section_id finalName
  let fex := gc.1
  let db1 := gc.2
  let pairs := (cohortStudents db r).product (cohortSubjects db r)
  let marks1 := upsertLoop db.scales db.marks (examIdsOf ps) ps fex.id pairs db1.marks
  let doPub := r.publish && !fex.is_published
  let exams2 := if doPub then pubMap fex.id db1.exams else db1.exams
  ({ db1 with exams := exams2, marks := marks1 },
   { final_exam_id := fex.id, final_exam_name := finalName,
     published := if r.publish then true else fex.is_published,
     upserts := pairs.length })

/-- `FinalizeAndPublish.post` after the weight precondition: resolve class and
section, check the component exams exist, check the cohort is non-empty, then
write.  A `.error` result models the 400 response: the enclosing
`transaction.atomic` leaves the state untouched. -/
def finalizeWithParts (db : DB) (r : FinReq) (ps : List Part) :
    Except FinErr (DB × FinRes) :=
  if r.class_id ∉ db.classes then .error .invalidClass
  else if r.section_id ∉ db.sections then .error .invalidSection
  else if examsFoundCount db (examIdsOf ps) ≠ (examIdsOf ps).length then .error .examNotFound
  else if (cohortStudents db r).isEmpty || (cohortSubjects db r).isEmpty then .error .emptyCohort
  else .ok (finalizeWrite db r ps)

/-- `FinalizeAndPublish.post` (staff check and identifier parsing already
passed). -/
def finalize (db : DB) (r : FinReq) : Except FinErr (DB × FinRes) := do
  let ps ← weightCheck r.parts
  finalizeWithParts db r ps

/-- The state after a call: the new state on success, the unchanged state on a
400 (the transaction rolls back). -/
def dbAfter (db : DB) (r : FinReq) : DB :=
  match finalize db r with
  | .ok x => x.1
  | .error _ => db

instance {E A : Type} [DecidableEq E] [DecidableEq A] : DecidableEq (Except E A) := fun a b =>
  match a, b with
  | .ok x, .ok y => if h : x = y then .isTrue (by rw [h]) else .isFalse (by simp [h])
  | .error x, .error y => if h : x = y then .isTrue (by rw [h]) else .isFalse (by simp [h])
  | .ok _, .error _ => .isFalse (by simp)
  | .error _, .ok _ => .isFalse (by simp)

/-- Whether a call returned 200. -/
def finOk (x : Except FinErr (DB × FinRes)) : Bool :=
  match x with
  | .ok _ => true
  | .error _ => false

/-- The stored-grade invariant: a mark's `letter`/`gpa` agree with the active
scale's band lookup for its score. -/
def gradeInv (scales : List GradeScale) (m : ExamMark) : Prop :=
  m.letter = (bandFor scales m.score).1 ∧ m.gpa = (bandFor scales m.score).2

/-- Two grade bands with disjoint `[min_score, max_score]` ranges (the
non-overlap rule `GradeBand.clean` enforces within a scale). -/
def bandsDisjoint (a b : GradeBand) : Prop :=
  a.max_score < b.min_score ∨ b.max_score < a.min_score

instance : DecidableRel bandsDisjoint := fun a b => by
  unfold bandsDisjoint
  infer_instance

/-! ## Concrete instances used by witnesses and counterexamples -/

/-- A stored Monday slot, 9:00–9:45, teacher 5, class 1 section 2. -/
def ttA : TimetableEntry :=
  { pk := some 1, class_name_id := 1, section_id := 2, subject_id := 3,
    teacher_id := some 5, classroom_id := none, day_of_week := "Mon",
    start_time := 540, end_time := 585, room := none }

/-- A candidate Monday slot for the same teacher, 9:30–10:15. -/
def ttB : TimetableEntry :=
  { pk := none, class_name_id := 4, section_id := 6, subject_id := 7,
    teacher_id := some 5, classroom_id := none, day_of_week := "Mon",
    start_time := 570, end_time := 615, room := none }

/-- A candidate slot whose start time is not before its end time. -/
def ttBad : TimetableEntry :=
  { pk := none, class_name_id := 4, section_id := 6, subject_id := 7,
    teacher_id := some 5, classroom_id := some 9, day_of_week := "Mon",
    start_time := 600, end_time := 600, room := some "101" }

/-- 32 students enrolled in class 1, section 2. -/
def cap32Students : List Student :=
  List.replicate 32 { id := 0, class_id := 1, section_id := 2 }

/-- A classroom declaring capacity 30. -/
def room30 : Classroom :=
  { name := "101", capacity := some 30 }

/-- Two stored scales, the first active. -/
def gsDb0 : List GradeScaleRow :=
  [{ pk := 1, name := "old", is_active := true },
   { pk := 2, name := "new", is_active := false }]

/-- Save of scale 2 as active. -/
def gsS0 : GradeScaleObj :=
  { pk := some 2, name := "new", is_active := true }

/-- A scale with bands `A+ : [80,100] → 5.00` and `A : [70,79] → 4.00`. -/
def scalesW : List GradeScale :=
  [{ is_active := true,
     bands := [{ min_score := 80, max_score := 100, letter := "A+", gpa := 500 },
               { min_score := 70, max_score := 79, letter := "A", gpa := 400 }] }]

/-- A mark whose caller-assigned letter/gpa disagree with the bands. -/
def markW : ExamMark :=
  { exam_id := 1, student_id := 2, subject_id := 3, score := 7400,
    letter := "WRONG", gpa := some 0 }

/-- The C3 scenario state: one class/section, exam A (id 10) and exam B
(id 11), students 1 and 2, one subject (id 7); marks: A student1 = 80.00,
B student1 = 70.00, B student2 = 90.00 (student2 absent from A). -/
def dbScenario : DB :=
  { classes := [1], sections := [2],
    exams := [{ id := 10, class_id := 1, section_id := 2, name := "A", is_published := true },
              { id := 11, class_id := 1, section_id := 2, name := "B", is_published := true }],
    marks := [{ exam_id := 10, student_id := 1, subject_id := 7, score := 8000, letter := "", gpa := none },
              { exam_id := 11, student_id := 1, subject_id := 7, score := 7000, letter := "", gpa := none },
              { exam_id := 11, student_id := 2, subject_id := 7, score := 9000, letter := "", gpa := none }],
    students := [{ id := 1, class_id := 1, section_id := 2 },
                 { id := 2, class_id := 1, section_id := 2 }],
    subjects := [{ id := 7, class_id := 1 }],
    scales := [],
    nextExamId := 20 }

/-- The C3 scenario request: Exam A weight 40, Exam B weight 60. -/
def reqScenario : FinReq :=
  { class_id := 1, section_id := 2, year := 2025,
    parts := .list [{ exam_id := some 10, weight := some (.pyInt 40) },
                    { exam_id := some 11, weight := some (.pyInt 60) }],
    name := some "F", publish := true }

/-- A minimal state accepted by finalize: one student, one subject, two exams. -/
def dbWeights : DB :=
  { classes := [1], sections := [1],
    exams := [{ id := 10, class_id := 1, section_id := 1, name := "A", is_published := true },
              { id := 11, class_id := 1, section_id := 1, name := "B", is_published := true }],
    marks := [],
    students := [{ id := 1, class_id := 1, section_id := 1 }],
    subjects := [{ id := 7, class_id := 1 }],
    scales := [],
    nextExamId := 20 }

/-- A request whose parts contain the negative weight −10 (with 110 alongside,
summing to 100). -/
def reqNegWeight : FinReq :=
  { class_id := 1, section_id := 1, year := 2025,
    parts := .list [{ exam_id := some 10, weight := some (.pyInt (-10)) },
                    { exam_id := some 11, weight := some (.pyInt 110) }],
    name := some "F", publish := true }

/-- A request whose single part has the non-integer weight 100.5
(`201 / 2`, truncated to 100 by `int(...)`). -/
def reqFracWeight : FinReq :=
  { class_id := 1, section_id := 1, year := 2025,
    parts := .list [{ exam_id := some 10, weight := some (.pyFloat 201 2) }],
    name := some "F", publish := true }

/-- A request whose weights sum to 99. -/
def reqSum99 : FinReq :=
  { reqNegWeight with
    parts := .list [{ exam_id := some 10, weight := some (.pyInt 40) },
                    { exam_id := some 11, weight := some (.pyInt 59) }] }

/-- A request whose weights sum to 101. -/
def reqSum101 : FinReq :=
  { reqNegWeight with
    parts := .list [{ exam_id := some 10, weight := some (.pyInt 40) },
                    { exam_id := some 11, weight := some (.pyInt 61) }] }

/-- A request with a weight `int(...)` raises on (`None`). -/
def reqNoneWeight : FinReq :=
  { reqNegWeight with
    parts := .list [{ exam_id := some 10, weight := some .pyNone }] }

/-- The C4 counterexample state: exam 10 carries the name "FR" that the
request also uses for the target final exam, so the final exam *is* component
exam 10. -/
def dbSelf : DB :=
  { classes := [1], sections := [1],
    exams := [{ id := 10, class_id := 1, section_id := 1, name := "FR", is_published := false },
              { id := 11, class_id := 1, section_id := 1, name := "B", is_published := true }],
    marks := [{ exam_id := 10, student_id := 1, subject_id := 7, score := 8000, letter := "", gpa := none },
              { exam_id := 11, student_id := 1, subject_id := 7, score := 6000, letter := "", gpa := none }],
    students := [{ id := 1, class_id := 1, section_id := 1 }],
    subjects := [{ id := 7, class_id := 1 }],
    scales := [],
    nextExamId := 20 }

/-- The C4 counterexample request: components 10 and 11, half weight each,
final name "FR". -/
def reqSelf : FinReq :=
  { class_id := 1, section_id := 1, year := 2025,
    parts := .list [{ exam_id := some 10, weight := some (.pyInt 50) },
                    { exam_id := some 11, weight := some (.pyInt 50) }],
    name := some "FR", publish := true }

/-- A minimal state for the idempotence witness. -/
def dbIdem : DB :=
  { classes := [1], sections := [1],
    exams := [{ id := 10, class_id := 1, section_id := 1, name := "E", is_published := false }],
    marks := [{ exam_id := 10, student_id := 1, subject_id := 7, score := 8000, letter := "", gpa := none }],
    students := [{ id := 1, class_id := 1, section_id := 1 }],
    subjects := [{ id := 7, class_id := 1 }],
    scales := [],
    nextExamId := 20 }

/-- The idempotence witness request: one component, weight 100, no publish. -/
def reqIdem : FinReq :=
  { class_id := 1, section_id := 1, year := 2025,
    parts := .list [{ exam_id := some 10, weight := some (.pyInt 100) }],
    name := some "E2", publish := false }

/-- The state after the first `reqIdem` run: final exam 20 created
unpublished, one final mark 80.00. -/
def dbIdem1 : DB :=
  { dbIdem with
    exams := dbIdem.exams ++
      [{ id := 20, class_id := 1, section_id := 1, name := "E2", is_published := false }],
    marks := dbIdem.marks ++
      [{ exam_id := 20, student_id := 1, subject_id := 7, score := 8000, letter := "", gpa := none }],
    nextExamId := 21 }

/-- The response of the first `reqIdem` run. -/
def resIdem1 : FinRes :=
  { final_exam_id := 20, final_exam_name := "E2", published := false, upserts := 1 }

/-! ## Theorems -/

theorem teacherCheck_nil (e : TimetableEntry) : teacherCheck [] e = .ok () := by
  unfold teacherCheck
  cases e.teacher_id <;> rfl

theorem roomCheck_nil (e : TimetableEntry) : roomCheck [] e = .ok () := by
  unfold roomCheck
  cases e.classroom_id
  · dsimp only
    split <;> rfl
  · rfl

theorem classSlotCheck_nil (e : TimetableEntry) : classSlotCheck [] e = .ok () := rfl

theorem deactOthers_pk (s : GradeScaleObj) (db : List GradeScaleRow) :
    ((deactOthers s db).map fun g => g.pk) = db.map fun g => g.pk := by
  unfold deactOthers
  rw [List.map_map]
  apply List.map_congr_left
  intro x _
  by_cases h : x.is_active && pkExcluded x.pk s.pk
  · simp only [Function.comp_apply, if_pos h]
  · simp only [Function.comp_apply, if_neg h]

theorem active_mem_deactOthers {s : GradeScaleObj} {db : List GradeScaleRow}
    {g : GradeScaleRow} (hg : g ∈ deactOthers s db) (hact : g.is_active = true) :
    pkExcluded g.pk s.pk = false := by
  obtain ⟨x, hx, rfl⟩ := List.mem_map.mp hg
  by_cases h : x.is_active && pkExcluded x.pk s.pk
  · rw [if_pos h] at hact
    simp at hact
  · rw [if_neg h] at hact ⊢
    cases hpe : pkExcluded x.pk s.pk
    · rfl
    · exact absurd (by simp [hact, hpe]) h

theorem countP_pk_le_one (l : List GradeScaleRow) (k : Nat)
    (h : (l.map fun g => g.pk).Nodup) :
    l.countP (fun g => decide (g.pk = k)) ≤ 1 := by
  induction l with
  | nil => simp
  | cons x xs ih =>
    rw [List.map_cons, List.nodup_cons] at h
    rw [List.countP_cons]
    by_cases hx : x.pk = k
    · have hz : xs.countP (fun g => decide (g.pk = k)) = 0 := by
        rw [List.countP_eq_zero]
        intro y hy hyk
        simp only [decide_eq_true_eq] at hyk
        exact h.1 (List.mem_map.mpr ⟨y, hy, by rw [hyk, hx]⟩)
      simp [hx, hz]
    · have hz : (if (fun g => decide (g.pk = k)) x = true then 1 else 0) = 0 := by
        simp [hx]
      rw [hz, add_zero]
      exact ih h.2

theorem gradeScaleSave_inactive_none {db : List GradeScaleRow} {s : GradeScaleObj}
    (h : s.is_active = false) (hp : s.pk = none) :
    gradeScaleSave db s = db ++ [savedRow db s] := by
  simp [gradeScaleSave, h, hp]

theorem gradeScaleSave_inactive_some {db : List GradeScaleRow} {s : GradeScaleObj}
    {k : Nat} (h : s.is_active = false) (hp : s.pk = some k) :
    gradeScaleSave db s = writeRow db k (savedRow db s) := by
  simp [gradeScaleSave, h, hp]

theorem gradeScaleSave_active_none {db : List GradeScaleRow} {s : GradeScaleObj}
    (h : s.is_active = true) (hp : s.pk = none) :
    gradeScaleSave db s = deactOthers s db ++ [savedRow db s] := by
  simp [gradeScaleSave, h, hp]

theorem gradeScaleSave_active_some {db : List GradeScaleRow} {s : GradeScaleObj}
    {k : Nat} (h : s.is_active = true) (hp : s.pk = some k) :
    gradeScaleSave db s = writeRow (deactOthers s db) k (savedRow db s) := by
  simp [gradeScaleSave, h, hp]

/-- C9: a candidate slot with `start_time >= end_time` is rejected by
`TimetableEntry.clean` with the time-sanity error, whatever the other fields
and whatever rows already exist — the result does not depend on `existing` at
all, so the rejection happens before any conflict check. -/
theorem time_order_validation (subjClassOf : Nat → Option Nat)
    (existing : List TimetableEntry) (e : TimetableEntry)
    (h : e.end_time ≤ e.start_time) :
    clean subjClassOf existing e = .error .timeOrder := by
  unfold clean
  rw [if_pos h]

/-- C9 witness: a degenerate 10:00–10:00 slot is rejected even against a
state holding a slot it would otherwise conflict with. -/
theorem time_order_validation_witness :
    clean (fun _ => none) [ttA] ttBad = .error .timeOrder :=
  time_order_validation (fun _ => none) [ttA] ttBad (by decide)

/-- C1: the serializer capacity check.  When a structured classroom reference
is present and declares a positive capacity, a candidate slot whose (class,
section) enrollment exceeds the capacity is rejected with the error naming the
capacity and the class size, and one whose enrollment does not exceed it
passes the check. -/
theorem classroom_capacity_validation (students : List Student) (c s : Int)
    (room : Classroom) (cap : Nat) (hcap : room.capacity = some cap) (hpos : 0 < cap) :
    (cap < classSize students c s →
      validateCapacity students (some c) (some s) (some room) =
        .error (cap, classSize students c s))
    ∧ (classSize students c s ≤ cap →
      validateCapacity students (some c) (some s) (some room) = .ok ()) := by
  constructor
  · intro hover
    simp only [validateCapacity, hcap]
    rw [if_pos hpos, if_pos hover]
  · intro hfits
    simp only [validateCapacity, hcap]
    rw [if_pos hpos, if_neg (not_lt.mpr hfits)]

/-- C1 witness: capacity 30, enrollment 32 — rejected with
`(capacity, class size) = (30, 32)`. -/
theorem classroom_capacity_validation_witness :
    validateCapacity cap32Students (some 1) (some 2) (some room30) = .error (30, 32) := by
  have h := (classroom_capacity_validation cap32Students 1 2 room30 30 rfl (by decide)).1
    (by decide)
  simpa using h

/-- C6: `round2` is round-half-up at 2 decimals.  In fixed point (argument in
units of `10 ^ (-4)`, result in centi-units): 84.005 = 840050 rounds to
84.01 = 8401; a non-negative value ending in exactly half a centi-unit rounds
up, its negation rounds away from zero, and in general the result is within
half a centi-unit of the argument. -/
theorem round2_half_up :
    round2 840050 = 8401
    ∧ (∀ n : Int, 0 ≤ n → round2 (n * 100 + 50) = n + 1)
    ∧ (∀ n : Int, 0 ≤ n → round2 (-(n * 100 + 50)) = -(n + 1))
    ∧ (∀ t : Int, 0 ≤ t → t - 50 < 100 * round2 t ∧ 100 * round2 t ≤ t + 50) := by
  have hfd : ∀ a : Int, a.fdiv 100 = a / 100 := fun a => Int.fdiv_eq_ediv a (by norm_num)
  refine ⟨by decide, ?_, ?_, ?_⟩
  · intro n hn
    have hpos : (0 : Int) ≤ n * 100 + 50 := by omega
    unfold round2
    rw [if_pos hpos, hfd]
    omega
  · intro n hn
    have hneg : ¬(0 : Int) ≤ -(n * 100 + 50) := by omega
    unfold round2
    rw [if_neg hneg, hfd]
    omega
  · intro t ht
    unfold round2
    rw [if_pos ht, hfd]
    have h1 := Int.ediv_add_emod (t + 50) 100
    have h2 := Int.emod_lt_of_pos (t + 50) (show (0 : Int) < 100 by norm_num)
    have h3 := Int.emod_nonneg (t + 50) (show (100 : Int) ≠ 0 by norm_num)
    omega

/-- C6 witness: 2.50 centi-halves round up, and 1.50 (in `10 ^ (-4)` units,
i.e. 0.0150) stays within half a centi-unit. -/
theorem round2_half_up_witness :
    round2 (2 * 100 + 50) = 2 + 1 ∧ ((150 : Int) - 50 < 100 * round2 150 ∧
      100 * round2 150 ≤ 150 + 50) :=
  ⟨round2_half_up.2.1 2 (by decide), round2_half_up.2.2.2 150 (by decide)⟩

/-- C7: teacher double-booking.  For a pair of slots on the same day with the
same (non-null) teacher, where the candidate `b` is validated against a state
holding the stored slot `a` (distinct row identity, sane times, subject check
passing): if the half-open time ranges overlap
(`start_a < end_b` and `end_a > start_b`) then `clean` fails with the
teacher-conflict error naming `a`'s time range and class/section, and if they
do not overlap the validation passes. -/
theorem teacher_conflict_validation (subjClassOf : Nat → Option Nat)
    (a b : TimetableEntry) (t : Nat)
    (hday : a.day_of_week = b.day_of_week)
    (hta : a.teacher_id = some t) (htb : b.teacher_id = some t)
    (hpk : a.pk ≠ b.pk)
    (htime : b.start_time < b.end_time)
    (hsubj : subjectMismatch subjClassOf b = false) :
    (a.start_time < b.end_time ∧ b.start_time < a.end_time →
      clean subjClassOf [a] b =
        .error (.teacherConflict a.start_time a.end_time a.class_name_id a.section_id))
    ∧ (¬(a.start_time < b.end_time ∧ b.start_time < a.end_time) →
      clean subjClassOf [a] b = .ok ()) := by
  have hstart : ¬(b.end_time ≤ b.start_time) := not_le.mpr htime
  have hsubj' : ¬(subjectMismatch subjClassOf b = true) := by simp [hsubj]
  constructor
  · rintro ⟨h1, h2⟩
    have hsub : overlapSubset [a] b = [a] := by
      simp [overlapSubset, overlapQ, hday, hpk, h1, h2]
    have htc : teacherCheck [a] b =
        .error (.teacherConflict a.start_time a.end_time a.class_name_id a.section_id) := by
      unfold teacherCheck
      rw [htb]
      dsimp only
      rw [List.find?_cons_of_pos _ (by simp [hta])]
    simp only [clean, if_neg hstart, if_neg hsubj', hsub]
    rw [htc]
    rfl
  · intro hno
    have hq : overlapQ b.start_time b.end_time a = false := by
      rw [Bool.eq_false_iff]
      intro hcon
      rw [overlapQ, Bool.and_eq_true, decide_eq_true_eq, decide_eq_true_eq] at hcon
      exact hno ⟨hcon.1, hcon.2⟩
    have hsub : overlapSubset [a] b = [] := by
      rw [overlapSubset, List.filter_eq_nil_iff]
      intro x hx
      rcases List.mem_singleton.mp hx with rfl
      simp [hq]
    simp only [clean, if_neg hstart, if_neg hsubj', hsub]
    rw [teacherCheck_nil]
    rw [show ((Except.ok () : Except CleanError Unit) >>= fun _ =>
      roomCheck [] b >>= fun _ => classSlotCheck [] b) =
      (roomCheck [] b >>= fun _ => classSlotCheck [] b) from rfl]
    rw [roomCheck_nil]
    rw [show ((Except.ok () : Except CleanError Unit) >>= fun _ =>
      classSlotCheck [] b) = classSlotCheck [] b from rfl]
    exact classSlotCheck_nil b

/-- C7 witness: two overlapping Monday slots of teacher 5 — the candidate is
rejected with the stored slot's 9:00–9:45 range and class 1 / section 2; the
same candidate moved to a disjoint range passes. -/
theorem teacher_conflict_validation_witness :
    clean (fun _ => none) [ttA] ttB = .error (.teacherConflict 540 585 1 2)
    ∧ clean (fun _ => none) [ttA]
        { ttB with start_time := 600, end_time := 660 } = .ok () :=
  ⟨by
    have h := (teacher_conflict_validation (fun _ => none) ttA ttB 5 rfl rfl rfl
      (by decide) (by decide) (by decide)).1 (by decide)
    simpa using h,
   by
    have h := (teacher_conflict_validation (fun _ => none) ttA
      { ttB with start_time := 600, end_time := 660 } 5 rfl rfl rfl
      (by decide) (by decide) (by decide)).2 (by decide)
    simpa using h⟩

/-- C10: every `ExamMark.save` recomputes `letter`/`gpa` from the active
scale at save time: caller-assigned values are overwritten (saving with any
`letter`/`gpa` stores the same rows), and a state in which every row
satisfies the stored-grade invariant still satisfies it after any save — so
the `letter_map` cache inside a finalize run has no effect on stored values. -/
theorem exam_mark_save_regrades (scales : List GradeScale) (marks : List ExamMark)
    (m : ExamMark) :
    (∀ l g, examMarkSave scales marks { m with letter := l, gpa := g } =
      examMarkSave scales marks m)
    ∧ ((∀ x ∈ marks, gradeInv scales x) →
      ∀ x ∈ examMarkSave scales marks m, gradeInv scales x) := by
  constructor
  · intro l g
    rfl
  · intro hinv x hx
    have hm : gradeInv scales (applyGrade scales m) := ⟨rfl, rfl⟩
    unfold examMarkSave upsertMark at hx
    by_cases han : marks.any (fun x => decide (x.key = (applyGrade scales m).key))
    · rw [if_pos han] at hx
      obtain ⟨y, hy, rfl⟩ := List.mem_map.mp hx
      by_cases hk : y.key = (applyGrade scales m).key
      · rw [if_pos hk]
        exact hm
      · rw [if_neg hk]
        exact hinv y hy
    · rw [if_neg han] at hx
      rcases List.mem_append.mp hx with hx | hx
      · exact hinv x hx
      · rcases List.mem_singleton.mp hx with rfl
        exact hm

/-- C10 witness: saving a mark whose caller assigned letter "WRONG" and gpa 0
stores the same rows as saving it untouched, and the stored row carries the
band values (A, 4.00) for its 74.00 score. -/
theorem exam_mark_save_regrades_witness :
    examMarkSave scalesW [] { markW with letter := "Z", gpa := some 123 } =
      examMarkSave scalesW [] markW
    ∧ gradeInv scalesW
        { exam_id := 1, student_id := 2, subject_id := 3, score := 7400,
          letter := "A", gpa := some 400 } :=
  ⟨(exam_mark_save_regrades scalesW [] markW).1 "Z" (some 123),
   (exam_mark_save_regrades scalesW [] markW).2 (by simp)
     { exam_id := 1, student_id := 2, subject_id := 3, score := 7400,
       letter := "A", gpa := some 400 } (by decide)⟩

/-- C8: at most one `GradeScale` is active.  After any save: if the saved
instance is active, every active row of the new state is the saved row (so
every *other* scale is inactive); if it is inactive, every other row is left
unchanged; and the invariant `activeCount ≤ 1` is preserved by every save
(given distinct pks, which the primary-key column guarantees). -/
theorem grade_scale_single_active (db : List GradeScaleRow) (s : GradeScaleObj) :
    (s.is_active = true →
      ∀ g ∈ gradeScaleSave db s, g.is_active = true → g = savedRow db s)
    ∧ (s.is_active = false →
      ∀ g ∈ db, (∀ k, s.pk = some k → g.pk ≠ k) → g ∈ gradeScaleSave db s)
    ∧ ((db.map fun g => g.pk).Nodup → activeCount db ≤ 1 →
      activeCount (gradeScaleSave db s) ≤ 1) := by
  refine ⟨?_, ?_, ?_⟩
  · intro hs g hg hact
    cases hpk : s.pk with
    | none =>
      rw [gradeScaleSave_active_none hs hpk] at hg
      rcases List.mem_append.mp hg with h | h
      · have hpe := active_mem_deactOthers h hact
        rw [hpk] at hpe
        simp [pkExcluded] at hpe
      · exact List.mem_singleton.mp h
    | some k =>
      rw [gradeScaleSave_active_some hs hpk] at hg
      unfold writeRow at hg
      by_cases hany : (deactOthers s db).any (fun g => decide (g.pk = k))
      · rw [if_pos hany] at hg
        obtain ⟨x, hx, rfl⟩ := List.mem_map.mp hg
        by_cases hxk : x.pk = k
        · rw [if_pos hxk]
        · rw [if_neg hxk] at hact ⊢
          have hpe := active_mem_deactOthers hx hact
          rw [hpk] at hpe
          simp only [pkExcluded, decide_eq_false_iff_not, not_not] at hpe
          exact absurd hpe hxk
      · rw [if_neg hany] at hg
        rcases List.mem_append.mp hg with h | h
        · have hpe := active_mem_deactOthers h hact
          rw [hpk] at hpe
          simp only [pkExcluded, decide_eq_false_iff_not, not_not] at hpe
          exact absurd (List.any_eq_true.mpr ⟨g, h, by simp [hpe]⟩) hany
        · exact List.mem_singleton.mp h
  · intro hs g hg hk
    cases hpk : s.pk with
    | none =>
      rw [gradeScaleSave_inactive_none hs hpk]
      exact List.mem_append_left _ hg
    | some k =>
      rw [gradeScaleSave_inactive_some hs hpk]
      unfold writeRow
      by_cases hany : db.any (fun g => decide (g.pk = k))
      · rw [if_pos hany]
        exact List.mem_map.mpr ⟨g, hg, by rw [if_neg (hk k hpk)]⟩
      · rw [if_neg hany]
        exact List.mem_append_left _ hg
  · intro hnd hcount
    cases hsa : s.is_active with
    | false =>
      cases hpk : s.pk with
      | none =>
        rw [gradeScaleSave_inactive_none hsa hpk, activeCount, List.countP_append]
        have hz : List.countP (fun g => g.is_active) [savedRow db s] = 0 := by
          simp [List.countP_singleton, savedRow, hsa]
        rw [hz, add_zero]
        exact hcount
      | some k =>
        rw [gradeScaleSave_inactive_some hsa hpk]
        unfold writeRow
        by_cases hany : db.any (fun g => decide (g.pk = k))
        · rw [if_pos hany, activeCount, List.countP_map]
          refine le_trans (List.countP_mono_left fun x hx hpx => ?_) hcount
          simp only [Function.comp_apply] at hpx
          by_cases hxk : x.pk = k
          · rw [if_pos hxk] at hpx
            simp [savedRow, hsa] at hpx
          · rw [if_neg hxk] at hpx
            exact hpx
        · rw [if_neg hany, activeCount, List.countP_append]
          have hz : List.countP (fun g => g.is_active) [savedRow db s] = 0 := by
            simp [List.countP_singleton, savedRow, hsa]
          rw [hz, add_zero]
          exact hcount
    | true =>
      cases hpk : s.pk with
      | none =>
        rw [gradeScaleSave_active_none hsa hpk, activeCount, List.countP_append]
        have hz : List.countP (fun g => g.is_active) (deactOthers s db) = 0 := by
          rw [List.countP_eq_zero]
          intro g hg hact
          have hpe := active_mem_deactOthers hg (by simpa using hact)
          rw [hpk] at hpe
          simp [pkExcluded] at hpe
        rw [hz, zero_add]
        rw [List.countP_singleton]
        split <;> norm_num
      | some k =>
        rw [gradeScaleSave_active_some hsa hpk]
        unfold writeRow
        by_cases hany : (deactOthers s db).any (fun g => decide (g.pk = k))
        · rw [if_pos hany, activeCount, List.countP_map]
          refine le_trans (List.countP_mono_left fun x hx hpx => ?_)
            (countP_pk_le_one _ k (by rw [deactOthers_pk]; exact hnd))
          simp only [Function.comp_apply] at hpx
          by_cases hxk : x.pk = k
          · simp [hxk]
          · rw [if_neg hxk] at hpx
            have hpe := active_mem_deactOthers hx hpx
            rw [hpk] at hpe
            simp only [pkExcluded, decide_eq_false_iff_not, not_not] at hpe
            exact absurd hpe hxk
        · rw [if_neg hany, activeCount, List.countP_append]
          have hz : List.countP (fun g => g.is_active) (deactOthers s db) = 0 := by
            rw [List.countP_eq_zero]
            intro g hg hact
            have hpe := active_mem_deactOthers hg (by simpa using hact)
            rw [hpk] at hpe
            simp only [pkExcluded, decide_eq_false_iff_not, not_not] at hpe
            exact absurd (List.any_eq_true.mpr ⟨g, hg, by simp [hpe]⟩) hany
          rw [hz, zero_add]
          rw [List.countP_singleton]
          split <;> norm_num

theorem find_unique {A : Type} {R : A → A → Prop} {p : A → Bool}
    (hexcl : ∀ x y, R x y → p x = true → p y = true → False) {b : A} (hpb : p b = true) :
    ∀ l : List A, l.Pairwise R → b ∈ l → l.find? p = some b := by
  intro l
  induction l with
  | nil => intro _ hb; cases hb
  | cons c cs ih =>
    intro hp hb
    rw [List.pairwise_cons] at hp
    by_cases hpc : p c = true
    · rw [List.find?_cons_of_pos _ hpc]
      rcases List.mem_cons.mp hb with rfl | hb2
      · rfl
      · exact (hexcl c b (hp.1 b hb2) hpc hpb).elim
    · rw [List.find?_cons_of_neg _ hpc]
      rcases List.mem_cons.mp hb with rfl | hb2
      · exact absurd hpb hpc
      · exact ih hp.2 hb2

theorem bandsOrdered_perm (bs : List GradeBand) : List.Perm (bandsOrdered bs) bs :=
  List.perm_insertionSort _ bs

/-- C8 witness: with scale 1 active and scale 2 inactive, saving scale 2 as
active leaves scale 2's saved row as the only possible active row. -/
theorem grade_scale_single_active_witness :
    ({ pk := 2, name := "new", is_active := true } : GradeScaleRow) = savedRow gsDb0 gsS0
    ∧ activeCount (gradeScaleSave gsDb0 gsS0) ≤ 1 :=
  ⟨(grade_scale_single_active gsDb0 gsS0).1 rfl
      { pk := 2, name := "new", is_active := true } (by decide) rfl,
   (grade_scale_single_active gsDb0 gsS0).2.2 (by decide) (by decide)⟩

/-- C5: grade-band lookup.  With no active scale, or with an active scale none
of whose bands contains the score, `band_for` yields `("", null)`; and the
lookup is boundary-inclusive: under the scale's non-overlap invariant, a score
equal to `min_score` or `max_score` of a band (in centi-units,
`score = 100 * bound`) is mapped to exactly that band's letter and gpa. -/
theorem grade_band_lookup (scales : List GradeScale) (score : Int) :
    ((∀ sc ∈ scales, sc.is_active = false) → bandFor scales score = ("", none))
    ∧ (∀ sc, scales.find? (fun sc => sc.is_active) = some sc →
        (∀ b ∈ sc.bands, bandMatches score b = false) → bandFor scales score = ("", none))
    ∧ (∀ sc b, scales.find? (fun sc => sc.is_active) = some sc →
        sc.bands.Pairwise bandsDisjoint → b ∈ sc.bands → b.min_score ≤ b.max_score →
        (score = 100 * (b.min_score : Int) ∨ score = 100 * (b.max_score : Int)) →
        bandFor scales score = (b.letter, some b.gpa)) := by
  refine ⟨?_, ?_, ?_⟩
  · intro hall
    unfold bandFor
    rw [List.find?_eq_none.mpr (fun sc hsc => by simp [hall sc hsc])]
  · intro sc hfind hnone
    unfold bandFor
    rw [hfind]
    dsimp only
    have hz : (bandsOrdered sc.bands).find? (bandMatches score) = none := by
      rw [List.find?_eq_none]
      intro b hb
      have hb2 : b ∈ sc.bands := (bandsOrdered_perm sc.bands).mem_iff.mp hb
      simp [hnone b hb2]
    rw [hz]
  · intro sc b hfind hpair hb hminmax hscore
    have hpair2 : (bandsOrdered sc.bands).Pairwise bandsDisjoint :=
      (bandsOrdered_perm sc.bands).symm.pairwise hpair fun h => h.symm
    have hmatch : bandMatches score b = true := by
      unfold bandMatches
      rcases hscore with h | h <;> simp only [h, Bool.and_eq_true, decide_eq_true_eq] <;>
        constructor <;> omega
    have hexcl : ∀ x y, bandsDisjoint x y →
        bandMatches score x = true → bandMatches score y = true → False := by
      intro x y hxy hx hy
      unfold bandMatches at hx hy
      simp only [Bool.and_eq_true, decide_eq_true_eq] at hx hy
      unfold bandsDisjoint at hxy
      rcases hxy with h | h <;> omega
    have hbmem : b ∈ bandsOrdered sc.bands := (bandsOrdered_perm sc.bands).mem_iff.mpr hb
    unfold bandFor
    rw [hfind]
    dsimp only
    rw [find_unique hexcl hmatch _ hpair2 hbmem]

/-- C5 witness: with bands `A+ : [80,100]` and `A : [70,79]` (gpa 5.00/4.00),
the boundary score 70.00 falls in band A, and 65.00 — outside every band —
yields the empty letter and null gpa. -/
theorem grade_band_lookup_witness :
    bandFor scalesW 7000 = ("A", some 400) ∧ bandFor scalesW 6500 = ("", none) :=
  ⟨(grade_band_lookup scalesW 7000).2.2
      { is_active := true,
        bands := [{ min_score := 80, max_score := 100, letter := "A+", gpa := 500 },
                  { min_score := 70, max_score := 79, letter := "A", gpa := 400 }] }
      { min_score := 70, max_score := 79, letter := "A", gpa := 400 }
      rfl (by decide) (by decide) (by decide) (Or.inl (by norm_num)),
   (grade_band_lookup scalesW 6500).2.1
      { is_active := true,
        bands := [{ min_score := 80, max_score := 100, letter := "A+", gpa := 500 },
                  { min_score := 70, max_score := 79, letter := "A", gpa := 400 }] }
      rfl (by decide)⟩

theorem weightSum_cons (q : Part) (qs : List Part) :
    weightSum (q :: qs) =
      match pyToInt (partWeightVal q), weightSum qs with
      | some w, some t => some (w + t)
      | _, _ => none := rfl

theorem weightSum_none {ps : List Part}
    (hp : ∃ p ∈ ps, pyToInt (partWeightVal p) = none) : weightSum ps = none := by
  induction ps with
  | nil => rcases hp with ⟨p, hp, _⟩; cases hp
  | cons q qs ih =>
    rcases hp with ⟨p, hp, hnone⟩
    rcases List.mem_cons.mp hp with rfl | hmem
    · rw [weightSum_cons, hnone]
    · rw [weightSum_cons, ih ⟨p, hmem, hnone⟩]
      cases pyToInt (partWeightVal q) <;> rfl

theorem weightCheck_list {ps : List Part} (hne : ps ≠ []) :
    weightCheck (.list ps) =
      match weightSum ps with
      | none => .error .weightsNotInt
      | some t => if t = 100 then .ok ps else .error (.badWeightSum t) := by
  unfold weightCheck partsList
  dsimp only
  rw [if_neg (by simp [List.isEmpty_iff, hne])]
  rfl

theorem finalize_weight_error {db : DB} {r : FinReq} {e : FinErr}
    (h : weightCheck r.parts = .error e) : finalize db r = .error e := by
  unfold finalize
  rw [h]
  rfl

/-- C2 counterexample: the weight precondition does *not* reject every parts
list containing a negative or non-integer weight.  Weights −10 and 110 (one
negative) sum to 100 and the call succeeds, and the single non-integer weight
100.5 is truncated by `int(...)` to 100 and the call succeeds. -/
theorem weight_precondition_counterexample :
    finOk (finalize dbWeights reqNegWeight) = true
    ∧ finOk (finalize dbWeights reqFracWeight) = true := by
  constructor <;> decide

/-- C2 (amended): finalize rejects, with no writes, a `parts` that is missing,
not a list, or an empty list; a parts list some of whose weights `int(...)`
cannot convert (`None` or a non-numeric string); and a parts list whose
converted weights do not sum to exactly 100 — `int(...)` truncates fractional
weights toward zero and accepts negative integers, so non-integer and negative
weights are not rejected per se.  A non-empty list whose weights convert and
sum to exactly 100 passes the weight precondition. -/
theorem weight_precondition (db : DB) (r : FinReq) :
    ((r.parts = .absent ∨ r.parts = .notAList ∨ r.parts = .list []) →
      finalize db r = .error .partsRequired)
    ∧ (∀ ps, r.parts = .list ps →
        (∃ p ∈ ps, pyToInt (partWeightVal p) = none) →
        finalize db r = .error .weightsNotInt)
    ∧ (∀ ps t, r.parts = .list ps → ps ≠ [] → weightSum ps = some t → t ≠ 100 →
        finalize db r = .error (.badWeightSum t))
    ∧ (∀ ps t, r.parts = .list ps → ps ≠ [] → weightSum ps = some t → t = 100 →
        weightCheck r.parts = .ok ps) := by
  refine ⟨?_, ?_, ?_, ?_⟩
  · rintro (h | h | h) <;> exact finalize_weight_error (by rw [h]; rfl)
  · intro ps hps hex
    have hne : ps ≠ [] := by
      rcases hex with ⟨p, hp, _⟩
      rintro rfl
      cases hp
    apply finalize_weight_error
    rw [hps, weightCheck_list hne, weightSum_none hex]
  · intro ps t hps hne hsum hneq
    apply finalize_weight_error
    rw [hps, weightCheck_list hne, hsum]
    dsimp only
    rw [if_neg hneq]
  · intro ps t hps hne hsum h100
    rw [hps, weightCheck_list hne, hsum]
    dsimp only
    rw [if_pos h100]

/-- C2 witness: weight sums 99 and 101 are rejected (with the sum named in the
error), a `None` weight is rejected, and the 40/60 split passes the
precondition. -/
theorem weight_precondition_witness :
    finalize dbWeights reqSum99 = .error (.badWeightSum 99)
    ∧ finalize dbWeights reqSum101 = .error (.badWeightSum 101)
    ∧ finalize dbWeights reqNoneWeight = .error .weightsNotInt
    ∧ weightCheck reqScenario.parts =
        .ok [{ exam_id := some 10, weight := some (.pyInt 40) },
             { exam_id := some 11, weight := some (.pyInt 60) }] :=
  ⟨(weight_precondition dbWeights reqSum99).2.2.1
      [{ exam_id := some 10, weight := some (.pyInt 40) },
       { exam_id := some 11, weight := some (.pyInt 59) }] 99
      rfl (by decide) (by decide) (by decide),
   (weight_precondition dbWeights reqSum101).2.2.1
      [{ exam_id := some 10, weight := some (.pyInt 40) },
       { exam_id := some 11, weight := some (.pyInt 61) }] 101
      rfl (by decide) (by decide) (by decide),
   (weight_precondition dbWeights reqNoneWeight).2.1
      [{ exam_id := some 10, weight := some .pyNone }]
      rfl ⟨{ exam_id := some 10, weight := some .pyNone }, by decide, rfl⟩,
   (weight_precondition dbWeights reqScenario).2.2.2
      [{ exam_id := some 10, weight := some (.pyInt 40) },
       { exam_id := some 11, weight := some (.pyInt 60) }] 100
      rfl (by decide) (by decide) rfl⟩

theorem lookupMark_upsert_self (marks : List ExamMark) (m : ExamMark) :
    lookupMark (upsertMark marks m) m.key = some m := by
  unfold upsertMark lookupMark
  by_cases han : marks.any (fun x => decide (x.key = m.key))
  · rw [if_pos han, List.find?_map]
    have hpf : ((fun x => decide (x.key = m.key)) ∘ fun x => if x.key = m.key then m else x)
        = fun x => decide (x.key = m.key) := by
      funext x
      by_cases hx : x.key = m.key
      · simp [Function.comp, hx]
      · simp [Function.comp, hx]
    rw [hpf]
    obtain ⟨x0, hmem, hx0⟩ := List.any_eq_true.mp han
    rcases hf : marks.find? (fun x => decide (x.key = m.key)) with _ | y
    · rw [List.find?_eq_none] at hf
      exact absurd hx0 (hf x0 hmem)
    · have hy := List.find?_some hf
      simp only [decide_eq_true_eq] at hy
      rw [hf]
      simp [hy]
  · rw [if_neg han, List.find?_append]
    have hone : [m].find? (fun x => decide (x.key = m.key)) = some m := by
      rw [List.find?_cons_of_pos _ (by simp)]
    rw [hone]
    have hnone : marks.find? (fun x => decide (x.key = m.key)) = none := by
      rw [List.find?_eq_none]
      intro x hx
      simp only [List.any_eq_true, not_exists, not_and] at han
      exact han x hx
    rw [hnone]
    rfl

theorem lookupMark_upsert_other {k : Int × Int × Int} {marks : List ExamMark} {m : ExamMark}
    (hk : k ≠ m.key) : lookupMark (upsertMark marks m) k = lookupMark marks k := by
  unfold upsertMark lookupMark
  by_cases han : marks.any (fun x => decide (x.key = m.key))
  · rw [if_pos han, List.find?_map]
    have hpf : ((fun x => decide (x.key = k)) ∘ fun x => if x.key = m.key then m else x)
        = fun x => decide (x.key = k) := by
      funext x
      by_cases hx : x.key = m.key
      · rw [Function.comp_apply, if_pos hx, hx]
      · rw [Function.comp_apply, if_neg hx]
    rw [hpf]
    rcases hf : marks.find? (fun x => decide (x.key = k)) with _ | y
    · rw [hf]
      rfl
    · have hy := List.find?_some hf
      simp only [decide_eq_true_eq] at hy
      have hym : ¬(y.key = m.key) := by
        rw [hy]
        exact hk
      rw [hf]
      simp [hym]
  · rw [if_neg han, List.find?_append]
    have hone : [m].find? (fun x => decide (x.key = k)) = none := by
      rw [List.find?_cons_of_neg _ (by simp only [decide_eq_true_eq]; exact fun h => hk h.symm)]
      rfl
    rw [hone]
    cases marks.find? (fun x => decide (x.key = k)) <;> rfl

theorem upsertStep_eq (scales : List GradeScale) (marks0 : List ExamMark)
    (examIds : List Int) (ps : List Part) (fid : Int) (marks : List ExamMark)
    (st su : Int) :
    upsertStep scales marks0 examIds ps fid marks (st, su) =
      upsertMark marks (computedRow scales marks0 examIds ps fid st su) := by
  unfold upsertStep examMarkSave computedRow applyGrade
  rcases hf : marks.find? (fun x => decide (x.key = (fid, st, su))) with _ | old
  · simp only [hf]
  · have hold := List.find?_some hf
    simp only [decide_eq_true_eq, ExamMark.key] at hold
    obtain ⟨h1, h2, h3⟩ : old.exam_id = fid ∧ old.student_id = st ∧ old.subject_id = su := by
      simpa [Prod.ext_iff] using hold
    simp only [hf]
    rw [h1, h2, h3]

theorem lookupMark_upsertLoop_not_mem {scales : List GradeScale} {marks0 : List ExamMark}
    {examIds : List Int} {ps : List Part} {fid : Int} {pairs : List (Int × Int)}
    {marks : List ExamMark} {st su : Int} (h : (st, su) ∉ pairs) :
    lookupMark (upsertLoop scales marks0 examIds ps fid pairs marks) (fid, st, su) =
      lookupMark marks (fid, st, su) := by
  induction pairs generalizing marks with
  | nil => rfl
  | cons q rest ih =>
    rw [show upsertLoop scales marks0 examIds ps fid (q :: rest) marks =
      upsertLoop scales marks0 examIds ps fid rest
        (upsertStep scales marks0 examIds ps fid marks q) from rfl]
    rw [ih (fun hm => h (List.mem_cons_of_mem q hm))]
    obtain ⟨q1, q2⟩ := q
    rw [upsertStep_eq]
    apply lookupMark_upsert_other
    intro hkey
    have hq : st = q1 ∧ su = q2 := by
      simpa [computedRow, ExamMark.key, Prod.ext_iff] using hkey
    rcases hq with ⟨rfl, rfl⟩
    exact h (List.mem_cons_self _ _)

theorem lookupMark_upsertLoop {scales : List GradeScale} {marks0 : List ExamMark}
    {examIds : List Int} {ps : List Part} {fid : Int} {pairs : List (Int × Int)}
    {marks : List ExamMark} {st su : Int} (hmem : (st, su) ∈ pairs) :
    lookupMark (upsertLoop scales marks0 examIds ps fid pairs marks) (fid, st, su) =
      some (computedRow scales marks0 examIds ps fid st su) := by
  induction pairs generalizing marks with
  | nil => cases hmem
  | cons q rest ih =>
    rw [show upsertLoop scales marks0 examIds ps fid (q :: rest) marks =
      upsertLoop scales marks0 examIds ps fid rest
        (upsertStep scales marks0 examIds ps fid marks q) from rfl]
    by_cases hrest : (st, su) ∈ rest
    · exact ih hrest
    · have hq : q = (st, su) := by
        rcases List.mem_cons.mp hmem with h | h
        · exact h.symm
        · exact absurd h hrest
      subst hq
      rw [lookupMark_upsertLoop_not_mem hrest, upsertStep_eq]
      exact lookupMark_upsert_self marks _

/-- C3: the upsert loop stores, for every `(student, subject)` pair of the
cohort product, exactly the row `computedRow` — score
`round2 (Σ parts, score_map.get((exam, student, subject), 0) * weight)` (in
fixed point, `weight / 100` folded into the units) with the band letter/gpa —
and on the spec's scenario (one subject, two students, Exam A weight 40 with
student2 absent, Exam B weight 60) the finalize call stores 74.00 for
student 1 and 54.00 for student 2. -/
theorem weighted_final_scores :
    (∀ (scales : List GradeScale) (marks0 : List ExamMark) (examIds : List Int)
        (ps : List Part) (fid : Int) (pairs : List (Int × Int)) (marks : List ExamMark)
        (st su : Int), (st, su) ∈ pairs →
        lookupMark (upsertLoop scales marks0 examIds ps fid pairs marks) (fid, st, su) =
          some (computedRow scales marks0 examIds ps fid st su))
    ∧ finOk (finalize dbScenario reqScenario) = true
    ∧ lookupScore (dbAfter dbScenario reqScenario).marks (20, 1, 7) = some 7400
    ∧ lookupScore (dbAfter dbScenario reqScenario).marks (20, 2, 7) = some 5400 := by
  refine ⟨?_, by decide, by decide, by decide⟩
  intro scales marks0 examIds ps fid pairs marks st su hmem
  exact lookupMark_upsertLoop hmem

/-- C3 witness: the general loop law applied to the scenario's student 1 —
the stored row is the computed one. -/
theorem weighted_final_scores_witness :
    lookupMark (upsertLoop [] dbScenario.marks [10, 11]
        [{ exam_id := some 10, weight := some (.pyInt 40) },
         { exam_id := some 11, weight := some (.pyInt 60) }] 20 [(1, 7)] dbScenario.marks)
      (20, 1, 7) =
      some (computedRow [] dbScenario.marks [10, 11]
        [{ exam_id := some 10, weight := some (.pyInt 40) },
         { exam_id := some 11, weight := some (.pyInt 60) }] 20 1 7) :=
  weighted_final_scores.1 [] dbScenario.marks [10, 11]
    [{ exam_id := some 10, weight := some (.pyInt 40) },
     { exam_id := some 11, weight := some (.pyInt 60) }] 20 [(1, 7)] dbScenario.marks 1 7
    (by decide)

theorem except_ok_bind {E A B : Type} (a : A) (f : A → Except E B) :
    (Except.ok a >>= f : Except E B) = f a := rfl

theorem except_error_bind {E A B : Type} (e : E) (f : A → Except E B) :
    ((Except.error e : Except E A) >>= f : Except E B) = .error e := rfl

theorem weightCheck_ok_parts {pf : PartsField} {ps : List Part}
    (h : weightCheck pf = .ok ps) : pf = .list ps := by
  cases pf with
  | absent => simp [weightCheck, partsList, except_error_bind] at h
  | notAList => simp [weightCheck, partsList, except_error_bind] at h
  | list qs =>
    unfold weightCheck partsList at h
    dsimp only at h
    by_cases hq : qs.isEmpty
    · rw [if_pos hq, except_error_bind] at h
      simp at h
    · rw [if_neg hq, except_ok_bind] at h
      rcases hs : weightSum qs with _ | t
      · rw [hs] at h
        simp at h
      · rw [hs] at h
        dsimp only at h
        by_cases ht : t = 100
        · rw [if_pos ht] at h
          obtain rfl : qs = ps := by simpa [Pure.pure, Except.pure] using h
          rfl
        · rw [if_neg ht] at h
          simp at h

theorem upsertMark_allKey {marks : List ExamMark} {m : ExamMark} :
    ∀ x ∈ upsertMark marks m, x.key = m.key → x = m := by
  intro x hx hk
  unfold upsertMark at hx
  by_cases han : marks.any (fun y => decide (y.key = m.key))
  · rw [if_pos han] at hx
    obtain ⟨y, hy, rfl⟩ := List.mem_map.mp hx
    by_cases hyk : y.key = m.key
    · rw [if_pos hyk]
    · rw [if_neg hyk] at hk ⊢
      exact absurd hk hyk
  · rw [if_neg han] at hx
    rcases List.mem_append.mp hx with h | h
    · exact absurd (List.any_eq_true.mpr ⟨x, h, by simp [hk]⟩) han
    · exact List.mem_singleton.mp h

theorem upsertMark_id {marks : List ExamMark} {m : ExamMark}
    (hall : ∀ x ∈ marks, x.key = m.key → x = m)
    (hex : ∃ x ∈ marks, x.key = m.key) : upsertMark marks m = marks := by
  obtain ⟨x0, hx0, hk0⟩ := hex
  unfold upsertMark
  rw [if_pos (List.any_eq_true.mpr ⟨x0, hx0, by simp [hk0]⟩)]
  have hid : ∀ x ∈ marks, (if x.key = m.key then m else x) = x := by
    intro x hx
    by_cases hk : x.key = m.key
    · rw [if_pos hk, hall x hx hk]
    · rw [if_neg hk]
  exact (List.map_congr_left hid).trans (List.map_id marks)

theorem upsertLoop_preserveAllKey {scales : List GradeScale} {marks0 : List ExamMark}
    {examIds : List Int} {ps : List Part} {fid : Int} {pairs : List (Int × Int)}
    {marks : List ExamMark} {st su : Int}
    (h0 : ∀ x ∈ marks, x.key = (fid, st, su) →
      x = computedRow scales marks0 examIds ps fid st su) :
    ∀ x ∈ upsertLoop scales marks0 examIds ps fid pairs marks,
      x.key = (fid, st, su) → x = computedRow scales marks0 examIds ps fid st su := by
  induction pairs generalizing marks with
  | nil => exact h0
  | cons q rest ih =>
    obtain ⟨q1, q2⟩ := q
    rw [show upsertLoop scales marks0 examIds ps fid ((q1, q2) :: rest) marks =
      upsertLoop scales marks0 examIds ps fid rest
        (upsertStep scales marks0 examIds ps fid marks (q1, q2)) from rfl]
    apply ih
    rw [upsertStep_eq]
    intro x hx hk
    by_cases hqk : ((fid, q1, q2) : Int × Int × Int) = (fid, st, su)
    · obtain ⟨h1, h2⟩ : q1 = st ∧ q2 = su := by simpa [Prod.ext_iff] using hqk
      subst h1
      subst h2
      exact upsertMark_allKey x hx hk
    · unfold upsertMark at hx
      by_cases han : marks.any (fun y =>
          decide (y.key = (computedRow scales marks0 examIds ps fid q1 q2).key))
      · rw [if_pos han] at hx
        obtain ⟨y, hy, rfl⟩ := List.mem_map.mp hx
        by_cases hyk : y.key = (computedRow scales marks0 examIds ps fid q1 q2).key
        · rw [if_pos hyk] at hk ⊢
          exact absurd hk hqk
        · rw [if_neg hyk] at hk ⊢
          exact h0 y hy hk
      · rw [if_neg han] at hx
        rcases List.mem_append.mp hx with h | h
        · exact h0 x h hk
        · rcases List.mem_singleton.mp h with rfl
          exact absurd hk hqk

theorem upsertLoop_allKey {scales : List GradeScale} {marks0 : List ExamMark}
    {examIds : List Int} {ps : List Part} {fid : Int} {pairs : List (Int × Int)}
    {marks : List ExamMark} {st su : Int} (hmem : (st, su) ∈ pairs) :
    ∀ x ∈ upsertLoop scales marks0 examIds ps fid pairs marks,
      x.key = (fid, st, su) → x = computedRow scales marks0 examIds ps fid st su := by
  induction pairs generalizing marks with
  | nil => cases hmem
  | cons q rest ih =>
    obtain ⟨q1, q2⟩ := q
    rw [show upsertLoop scales marks0 examIds ps fid ((q1, q2) :: rest) marks =
      upsertLoop scales marks0 examIds ps fid rest
        (upsertStep scales marks0 examIds ps fid marks (q1, q2)) from rfl]
    by_cases hrest : (st, su) ∈ rest
    · exact ih hrest
    · have hq : (st, su) = ((q1, q2) : Int × Int) := by
        rcases List.mem_cons.mp hmem with h | h
        · exact h
        · exact absurd h hrest
      obtain ⟨rfl, rfl⟩ : st = q1 ∧ su = q2 := by simpa [Prod.ext_iff] using hq
      rw [upsertStep_eq]
      exact upsertLoop_preserveAllKey (fun x hx hk => upsertMark_allKey x hx hk)

theorem upsertLoop_id {scales : List GradeScale} {marks0 : List ExamMark}
    {examIds : List Int} {ps : List Part} {fid : Int} {pairs : List (Int × Int)}
    {marks : List ExamMark}
    (hall : ∀ q ∈ pairs, ∀ x ∈ marks, x.key = (fid, q.1, q.2) →
      x = computedRow scales marks0 examIds ps fid q.1 q.2)
    (hex : ∀ q ∈ pairs, ∃ x ∈ marks, x.key = (fid, q.1, q.2)) :
    upsertLoop scales marks0 examIds ps fid pairs marks = marks := by
  induction pairs with
  | nil => rfl
  | cons q rest ih =>
    obtain ⟨q1, q2⟩ := q
    rw [show upsertLoop scales marks0 examIds ps fid ((q1, q2) :: rest) marks =
      upsertLoop scales marks0 examIds ps fid rest
        (upsertStep scales marks0 examIds ps fid marks (q1, q2)) from rfl]
    rw [upsertStep_eq]
    rw [upsertMark_id (hall (q1, q2) (List.mem_cons_self _ _)) (hex (q1, q2) (List.mem_cons_self _ _))]
    exact ih (fun q hq => hall q (List.mem_cons_of_mem _ hq))
      (fun q hq => hex q (List.mem_cons_of_mem _ hq))

theorem filter_upsertMark_keyPred {p : ExamMark → Bool}
    (hP : ∀ x y : ExamMark, x.key = y.key → p x = p y) {marks : List ExamMark}
    {m : ExamMark} (hm : p m = false) :
    (upsertMark marks m).filter p = marks.filter p := by
  unfold upsertMark
  by_cases han : marks.any (fun x => decide (x.key = m.key))
  · rw [if_pos han]
    clear han
    induction marks with
    | nil => rfl
    | cons y ys ih =>
      rw [List.map_cons]
      by_cases hk : y.key = m.key
      · rw [if_pos hk]
        have hpy : p y = false := by rw [hP y m hk]; exact hm
        rw [List.filter_cons, List.filter_cons]
        simp only [hm, hpy]
        exact ih
      · rw [if_neg hk, List.filter_cons, List.filter_cons]
        cases hpy : p y
        · simp only [ih]
        · simp only [ih]
  · rw [if_neg han, List.filter_append]
    have : [m].filter p = [] := by simp [hm]
    rw [this, List.append_nil]

theorem filter_upsertLoop_keyPred {p : ExamMark → Bool}
    (hP : ∀ x y : ExamMark, x.key = y.key → p x = p y)
    {scales : List GradeScale} {marks0 : List ExamMark} {examIds : List Int}
    {ps : List Part} {fid : Int} {pairs : List (Int × Int)} {marks : List ExamMark}
    (hfid : ∀ st su : Int, p (computedRow scales marks0 examIds ps fid st su) = false) :
    (upsertLoop scales marks0 examIds ps fid pairs marks).filter p = marks.filter p := by
  induction pairs generalizing marks with
  | nil => rfl
  | cons q rest ih =>
    obtain ⟨q1, q2⟩ := q
    rw [show upsertLoop scales marks0 examIds ps fid ((q1, q2) :: rest) marks =
      upsertLoop scales marks0 examIds ps fid rest
        (upsertStep scales marks0 examIds ps fid marks (q1, q2)) from rfl]
    rw [ih, upsertStep_eq, filter_upsertMark_keyPred hP (hfid q1 q2)]

theorem scoreLookup_congr {m1 m2 : List ExamMark} {ids : List Int}
    (h : m1.filter (fun m => decide (m.exam_id ∈ ids)) =
      m2.filter (fun m => decide (m.exam_id ∈ ids))) (k : Int × Int × Int) :
    scoreLookup m1 ids k = scoreLookup m2 ids k := by
  unfold scoreLookup
  rw [h]

theorem weightedTotal_congr {m1 m2 : List ExamMark} {ids : List Int}
    (h : m1.filter (fun m => decide (m.exam_id ∈ ids)) =
      m2.filter (fun m => decide (m.exam_id ∈ ids))) (ps : List Part) (st su : Int) :
    weightedTotal m1 ids ps st su = weightedTotal m2 ids ps st su := by
  unfold weightedTotal
  have hgen : ∀ (qs : List Part) (a : Int),
      qs.foldl (fun acc p => acc + scoreLookup m1 ids (partExamId p, st, su) * partWeight p) a =
      qs.foldl (fun acc p => acc + scoreLookup m2 ids (partExamId p, st, su) * partWeight p) a := by
    intro qs
    induction qs with
    | nil => intro a; rfl
    | cons p rest ih =>
      intro a
      rw [List.foldl_cons, List.foldl_cons, scoreLookup_congr h]
      exact ih _
  exact hgen ps 0

theorem computedRow_congr {m1 m2 : List ExamMark} {ids : List Int}
    (h : m1.filter (fun m => decide (m.exam_id ∈ ids)) =
      m2.filter (fun m => decide (m.exam_id ∈ ids)))
    (scales : List GradeScale) (ps : List Part) (fid st su : Int) :
    computedRow scales m1 ids ps fid st su = computedRow scales m2 ids ps fid st su := by
  unfold computedRow
  rw [weightedTotal_congr h]

theorem find?_pubMap (exs : List Exam) (fid c s : Int) (nm : String) :
    (pubMap fid exs).find? (examKeyPred c s nm)
    = (exs.find? (examKeyPred c s nm)).map
      (fun e => if e.id = fid then { e with is_published := true } else e) := by
  have heq : (examKeyPred c s nm ∘
      fun e => if e.id = fid then { e with is_published := true } else e) =
      examKeyPred c s nm := by
    funext e
    rw [Function.comp_apply]
    by_cases h : e.id = fid
    · rw [if_pos h]
      rfl
    · rw [if_neg h]
  rw [pubMap, List.find?_map, heq]

theorem filterLen_pubMap (exs : List Exam) (fid : Int) (ids : List Int) :
    ((pubMap fid exs).filter (fun e => decide (e.id ∈ ids))).length =
    (exs.filter (fun e => decide (e.id ∈ ids))).length := by
  have heq : ((fun e : Exam => decide (e.id ∈ ids)) ∘
      fun e => if e.id = fid then { e with is_published := true } else e) =
      fun e : Exam => decide (e.id ∈ ids) := by
    funext e
    rw [Function.comp_apply]
    by_cases h : e.id = fid
    · rw [if_pos h]
    · rw [if_neg h]
  rw [pubMap, List.filter_map, heq, List.length_map]

theorem finalizeWrite_spec_found (db : DB) (r : FinReq) (ps : List Part) (fex0 : Exam)
    (hgc : db.exams.find? (examKeyPred r.class_id r.section_id
      (pyOrName r.name ("Final Result " ++ toString r.year))) = some fex0) :
    finalizeWrite db r ps =
      ({ db with
          exams := if r.publish && !fex0.is_published then pubMap fex0.id db.exams
            else db.exams,
          marks := upsertLoop db.scales db.marks (examIdsOf ps) ps fex0.id
            ((cohortStudents db r).product (cohortSubjects db r)) db.marks },
       { final_exam_id := fex0.id,
         final_exam_name := pyOrName r.name ("Final Result " ++ toString r.year),
         published := if r.publish then true else fex0.is_published,
         upserts := ((cohortStudents db r).product (cohortSubjects db r)).length }) := by
  unfold finalizeWrite getOrCreateExam
  dsimp only
  rw [hgc]

theorem finalizeWrite_spec_created (db : DB) (r : FinReq) (ps : List Part)
    (hgc : db.exams.find? (examKeyPred r.class_id r.section_id
      (pyOrName r.name ("Final Result " ++ toString r.year))) = none) :
    finalizeWrite db r ps =
      ({ db with
          exams := if r.publish then
              pubMap db.nextExamId (db.exams ++
                [{ id := db.nextExamId, class_id := r.class_id, section_id := r.section_id,
                   name := pyOrName r.name ("Final Result " ++ toString r.year),
                   is_published := false }])
            else db.exams ++
              [{ id := db.nextExamId, class_id := r.class_id, section_id := r.section_id,
                 name := pyOrName r.name ("Final Result " ++ toString r.year),
                 is_published := false }],
          marks := upsertLoop db.scales db.marks (examIdsOf ps) ps db.nextExamId
            ((cohortStudents db r).product (cohortSubjects db r)) db.marks,
          nextExamId := db.nextExamId + 1 },
       { final_exam_id := db.nextExamId,
         final_exam_name := pyOrName r.name ("Final Result " ++ toString r.year),
         published := if r.publish then true else false,
         upserts := ((cohortStudents db r).product (cohortSubjects db r)).length }) := by
  unfold finalizeWrite getOrCreateExam
  dsimp only
  rw [hgc]
  simp only [Bool.not_false, Bool.and_true]

theorem upsertLoop_idem_on (scales : List GradeScale) (marks0 : List ExamMark)
    (ids : List Int) (ps : List Part) (fid : Int) (pairs : List (Int × Int))
    (hfid : fid ∉ ids) :
    upsertLoop scales (upsertLoop scales marks0 ids ps fid pairs marks0) ids ps fid pairs
      (upsertLoop scales marks0 ids ps fid pairs marks0) =
    upsertLoop scales marks0 ids ps fid pairs marks0 := by
  have hP : ∀ x y : ExamMark, x.key = y.key →
      (fun m => decide (m.exam_id ∈ ids)) x = (fun m => decide (m.exam_id ∈ ids)) y := by
    intro x y hk
    have hxy : x.exam_id = y.exam_id := congrArg (fun p => p.1) hk
    simp only [hxy]
  have hfidp : ∀ st su : Int,
      (fun m => decide (m.exam_id ∈ ids)) (computedRow scales marks0 ids ps fid st su) = false := by
    intro st su
    exact decide_eq_false hfid
  have hfilt : (upsertLoop scales marks0 ids ps fid pairs marks0).filter
        (fun m => decide (m.exam_id ∈ ids)) =
      marks0.filter (fun m => decide (m.exam_id ∈ ids)) :=
    filter_upsertLoop_keyPred hP hfidp
  have hcomp : ∀ st su : Int,
      computedRow scales (upsertLoop scales marks0 ids ps fid pairs marks0) ids ps fid st su =
        computedRow scales marks0 ids ps fid st su :=
    fun st su => computedRow_congr hfilt scales ps fid st su
  apply upsertLoop_id
  · intro q hq x hx hk
    rw [hcomp]
    exact upsertLoop_allKey hq x hx hk
  · intro q hq
    have hl : lookupMark (upsertLoop scales marks0 ids ps fid pairs marks0)
        (fid, q.1, q.2) = some (computedRow scales marks0 ids ps fid q.1 q.2) :=
      lookupMark_upsertLoop hq
    unfold lookupMark at hl
    exact ⟨computedRow scales marks0 ids ps fid q.1 q.2, List.mem_of_find?_eq_some hl, rfl⟩

theorem finalizeWrite_idem (db : DB) (r : FinReq) (ps : List Part)
    (hsep : (finalizeWrite db r ps).2.final_exam_id ∉ examIdsOf ps) :
    finalizeWrite (finalizeWrite db r ps).1 r ps = finalizeWrite db r ps := by
  rcases hgc : db.exams.find? (examKeyPred r.class_id r.section_id
      (pyOrName r.name ("Final Result " ++ toString r.year))) with _ | fex0
  · have h1 := finalizeWrite_spec_created db r ps hgc
    rw [h1] at hsep ⊢
    dsimp only at hsep ⊢
    have hloop := upsertLoop_idem_on db.scales db.marks (examIdsOf ps) ps db.nextExamId
      ((cohortStudents db r).product (cohortSubjects db r)) hsep
    have hnew : examKeyPred r.class_id r.section_id
        (pyOrName r.name ("Final Result " ++ toString r.year))
        { id := db.nextExamId, class_id := r.class_id, section_id := r.section_id,
          name := pyOrName r.name ("Final Result " ++ toString r.year),
          is_published := false } = true := by
      simp [examKeyPred]
    by_cases hp : r.publish = true
    · rw [if_pos hp]
      have hgc2 : (pubMap db.nextExamId (db.exams ++
          [{ id := db.nextExamId, class_id := r.class_id, section_id := r.section_id,
             name := pyOrName r.name ("Final Result " ++ toString r.year),
             is_published := false }])).find? (examKeyPred r.class_id r.section_id
            (pyOrName r.name ("Final Result " ++ toString r.year))) =
          some { id := db.nextExamId, class_id := r.class_id, section_id := r.section_id,
                 name := pyOrName r.name ("Final Result " ++ toString r.year),
                 is_published := true } := by
        rw [find?_pubMap, List.find?_append, hgc, Option.none_or,
          List.find?_cons_of_pos _ hnew]
        simp only [Option.map_some']
        rw [if_true]
      rw [finalizeWrite_spec_found _ r ps _ hgc2]
      dsimp only [cohortStudents, cohortSubjects] at hloop ⊢
      rw [hloop]
      simp [hp]
    · rw [if_neg hp]
      have hgc2 : ((db.exams ++
          [({ id := db.nextExamId, class_id := r.class_id, section_id := r.section_id,
              name := pyOrName r.name ("Final Result " ++ toString r.year),
              is_published := false } : Exam)]).find? (examKeyPred r.class_id r.section_id
            (pyOrName r.name ("Final Result " ++ toString r.year)))) =
          some { id := db.nextExamId, class_id := r.class_id, section_id := r.section_id,
                 name := pyOrName r.name ("Final Result " ++ toString r.year),
                 is_published := false } := by
        rw [List.find?_append, hgc, Option.none_or, List.find?_cons_of_pos _ hnew]
      rw [finalizeWrite_spec_found _ r ps _ hgc2]
      dsimp only [cohortStudents, cohortSubjects] at hloop ⊢
      rw [hloop]
      simp [hp]
  · have h1 := finalizeWrite_spec_found db r ps fex0 hgc
    rw [h1] at hsep ⊢
    dsimp only at hsep ⊢
    have hloop := upsertLoop_idem_on db.scales db.marks (examIdsOf ps) ps fex0.id
      ((cohortStudents db r).product (cohortSubjects db r)) hsep
    by_cases hdp : (r.publish && !fex0.is_published) = true
    · rw [if_pos hdp]
      obtain ⟨hp, hnp⟩ : r.publish = true ∧ fex0.is_published = false := by
        simpa using hdp
      have hgc2 : (pubMap fex0.id db.exams).find? (examKeyPred r.class_id r.section_id
            (pyOrName r.name ("Final Result " ++ toString r.year))) =
          some { fex0 with is_published := true } := by
        rw [find?_pubMap, hgc]
        simp only [Option.map_some']
        rw [if_true]
      rw [finalizeWrite_spec_found _ r ps _ hgc2]
      dsimp only [cohortStudents, cohortSubjects] at hloop ⊢
      rw [hloop]
      simp [hp, hnp]
    · rw [if_neg hdp]
      have h2 := finalizeWrite_spec_found
        { db with
          marks := upsertLoop db.scales db.marks (examIdsOf ps) ps fex0.id
            ((cohortStudents db r).product (cohortSubjects db r)) db.marks } r ps fex0 hgc
      rw [h2]
      dsimp only [cohortStudents, cohortSubjects] at hloop ⊢
      rw [hloop]
      rw [if_neg hdp]

theorem finalizeWrite_fields (db : DB) (r : FinReq) (ps : List Part) :
    (finalizeWrite db r ps).1.classes = db.classes
    ∧ (finalizeWrite db r ps).1.sections = db.sections
    ∧ (finalizeWrite db r ps).1.students = db.students
    ∧ (finalizeWrite db r ps).1.subjects = db.subjects
    ∧ (finalizeWrite db r ps).1.scales = db.scales := by
  rcases hgc : db.exams.find? (examKeyPred r.class_id r.section_id
      (pyOrName r.name ("Final Result " ++ toString r.year))) with _ | fex0
  · rw [finalizeWrite_spec_created db r ps hgc]
    exact ⟨rfl, rfl, rfl, rfl, rfl⟩
  · rw [finalizeWrite_spec_found db r ps fex0 hgc]
    exact ⟨rfl, rfl, rfl, rfl, rfl⟩

theorem finalizeWrite_examsCount (db : DB) (r : FinReq) (ps : List Part)
    (hsep : (finalizeWrite db r ps).2.final_exam_id ∉ examIdsOf ps) :
    examsFoundCount (finalizeWrite db r ps).1 (examIdsOf ps) =
      examsFoundCount db (examIdsOf ps) := by
  rcases hgc : db.exams.find? (examKeyPred r.class_id r.section_id
      (pyOrName r.name ("Final Result " ++ toString r.year))) with _ | fex0
  · rw [finalizeWrite_spec_created db r ps hgc] at hsep ⊢
    dsimp only at hsep
    unfold examsFoundCount
    dsimp only
    by_cases hp : r.publish = true
    · rw [if_pos hp, filterLen_pubMap, List.filter_append]
      simp [hsep]
    · rw [if_neg hp, List.filter_append]
      simp [hsep]
  · rw [finalizeWrite_spec_found db r ps fex0 hgc]
    unfold examsFoundCount
    dsimp only
    by_cases hdp : (r.publish && !fex0.is_published) = true
    · rw [if_pos hdp, filterLen_pubMap]
    · rw [if_neg hdp]

theorem cohortStudents_eq {db1 db2 : DB} {r : FinReq} (h : db1.students = db2.students) :
    cohortStudents db1 r = cohortStudents db2 r := by
  unfold cohortStudents
  rw [h]

theorem cohortSubjects_eq {db1 db2 : DB} {r : FinReq} (h : db1.subjects = db2.subjects) :
    cohortSubjects db1 r = cohortSubjects db2 r := by
  unfold cohortSubjects
  rw [h]

/-- C4 counterexample: finalize twice with identical inputs is *not* always
the same rows.  When a component exam is itself the located target final exam
(here exam 10, named "FR", with components 10 and 11 at weight 50 each), the
first run overwrites exam 10's marks (80.00 and 60.00 give 70.00), so the
second run computes from the changed score map (70.00 and 60.00 give 65.00):
the mark rows differ between the runs. -/
theorem finalize_idempotence_counterexample :
    finOk (finalize dbSelf reqSelf) = true
    ∧ finOk (finalize (dbAfter dbSelf reqSelf) reqSelf) = true
    ∧ (dbAfter (dbAfter dbSelf reqSelf) reqSelf).marks ≠ (dbAfter dbSelf reqSelf).marks
    ∧ lookupScore (dbAfter dbSelf reqSelf).marks (10, 1, 7) = some 7000
    ∧ lookupScore (dbAfter (dbAfter dbSelf reqSelf) reqSelf).marks (10, 1, 7) = some 6500 :=
  ⟨by decide, by decide, by decide, by decide, by decide⟩

/-- C4 (amended): finalize is idempotent provided the located-or-created
target final exam is not itself one of the component exams: a second call
with identical inputs and no intervening change returns the same final exam
id, the same response, and leaves the state — in particular the FinalMark
rows — exactly as the first call left it (no duplicate final exam, no
duplicate mark rows). -/
theorem finalize_idempotent (db : DB) (r : FinReq) (db1 : DB) (res1 : FinRes)
    (h1 : finalize db r = .ok (db1, res1))
    (hsep : ∀ qs, r.parts = .list qs → res1.final_exam_id ∉ examIdsOf qs) :
    finalize db1 r = .ok (db1, res1) := by
  unfold finalize at h1 ⊢
  rcases hw : weightCheck r.parts with e | ps
  · rw [hw, except_error_bind] at h1
    exact absurd h1 (by simp)
  · rw [hw, except_ok_bind] at h1
    rw [except_ok_bind]
    have hparts := weightCheck_ok_parts hw
    unfold finalizeWithParts at h1
    have hc1 : ¬(r.class_id ∉ db.classes) := by
      intro hh
      rw [if_pos hh] at h1
      exact absurd h1 (by simp)
    rw [if_neg hc1] at h1
    have hc2 : ¬(r.section_id ∉ db.sections) := by
      intro hh
      rw [if_pos hh] at h1
      exact absurd h1 (by simp)
    rw [if_neg hc2] at h1
    have hc3 : ¬(examsFoundCount db (examIdsOf ps) ≠ (examIdsOf ps).length) := by
      intro hh
      rw [if_pos hh] at h1
      exact absurd h1 (by simp)
    rw [if_neg hc3] at h1
    have hc4 : ¬((cohortStudents db r).isEmpty || (cohortSubjects db r).isEmpty) = true := by
      intro hh
      rw [if_pos hh] at h1
      exact absurd h1 (by simp)
    rw [if_neg hc4] at h1
    have hW : finalizeWrite db r ps = (db1, res1) := by simpa using h1
    have hsep2 : (finalizeWrite db r ps).2.final_exam_id ∉ examIdsOf ps := by
      rw [hW]
      exact hsep ps hparts
    have hflds := finalizeWrite_fields db r ps
    rw [hW] at hflds
    obtain ⟨hcl, hse, hstu, hsub, hsca⟩ := hflds
    dsimp only at hcl hse hstu hsub hsca
    have hcount := finalizeWrite_examsCount db r ps hsep2
    rw [hW] at hcount
    dsimp only at hcount
    unfold finalizeWithParts
    rw [if_neg (show ¬(r.class_id ∉ db1.classes) by
      intro hh
      rw [hcl] at hh
      exact hc1 hh)]
    rw [if_neg (show ¬(r.section_id ∉ db1.sections) by
      intro hh
      rw [hse] at hh
      exact hc2 hh)]
    rw [if_neg (show ¬(examsFoundCount db1 (examIdsOf ps) ≠ (examIdsOf ps).length) by
      rw [hcount]
      exact hc3)]
    rw [if_neg (show ¬((cohortStudents db1 r).isEmpty || (cohortSubjects db1 r).isEmpty) = true by
      rw [cohortStudents_eq hstu, cohortSubjects_eq hsub]
      exact hc4)]
    have hidem := finalizeWrite_idem db r ps hsep2
    rw [hW] at hidem
    dsimp only at hidem
    rw [hidem]

/-- C4 witness: a one-component finalize (weight 100) re-run on its own output
state returns the same response and state. -/
theorem finalize_idempotent_witness :
    finalize dbIdem1 reqIdem = .ok (dbIdem1, resIdem1) :=
  finalize_idempotent dbIdem reqIdem dbIdem1 resIdem1 (by decide)
    (fun qs h => by
      injection h with h2
      subst h2
      decide)

end FixAssign
